import Mathlib

set_option maxHeartbeats 1000000

/-!
Verification of the SWOT documentation generator (`scripts/generate-docs.js`)
and its companion Basic-auth reverse proxy (`server.js`).  The JavaScript
source is shallowly embedded: every function below is a direct translation of
the corresponding code, with machine integers modelled as `Nat`/`Int`, the
SQLite rows as structures, the output directory as an association list from
file names to file contents, and fallible operations (JSON parsing, property
reads that throw) as `Option`/`Except`.
-/

namespace SwotDocs

/-- Accumulator loop producing the decimal digits of `n` in order, as the
JavaScript number-to-string conversion does for a nonnegative integer.  The
structural `fuel` argument bounds the recursion depth; it is called with
`fuel = n`, which always dominates the number of digits, so the exhaustion
branch is unreachable. -/
def natToDecAux (fuel : Nat) (n : Nat) (acc : List Char) : List Char :=
  match fuel with
  | 0 => Char.ofNat (48 + n % 10) :: acc
  | fuel + 1 =>
    if n < 10 then Char.ofNat (48 + n % 10) :: acc
    else natToDecAux fuel (n / 10) (Char.ofNat (48 + n % 10) :: acc)

/-- Decimal digit characters of `n`. -/
def natToDec (n : Nat) : List Char := natToDecAux n n []

/-- Decimal string of `n`, the value of `${n}` in a template literal. -/
def natToDecStr (n : Nat) : String := ⟨natToDec n⟩

/-- Decimal string of an integer, the value of `${i}` in a template literal
(used for `sidebar_position: ${1000 - row.id}`, which can go negative). -/
def intToDecStr (i : Int) : String :=
  if i < 0 then "-" ++ natToDecStr (-i).toNat else natToDecStr i.toNat

/-- Numeric value of one decimal digit character. -/
def digitVal (c : Char) : Nat := c.toNat - 48

/-- Value of a decimal digit string, as `parseInt` computes it on a string
of digits. -/
def digitsVal (l : List Char) : Nat :=
  l.foldl (fun a c => 10 * a + digitVal c) 0

/-- Reference form of the decimal digits, used only in proofs (the
executable form is `natToDec`). -/
def decDigits (n : Nat) : List Char :=
  if n < 10 then [Char.ofNat (48 + n % 10)]
  else decDigits (n / 10) ++ [Char.ofNat (48 + n % 10)]
termination_by n
decreasing_by exact Nat.div_lt_self (by omega) (by omega)

/-- Gregorian (year, month, day) of a count of days since 1970-01-01. -/
def civilFromDays (z0 : Int) : Int × Int × Int :=
  let z := z0 + 719468
  let era := z.ediv 146097
  let doe := z - era * 146097
  let yoe := (doe - doe.ediv 1460 + doe.ediv 36524 - doe.ediv 146096).ediv 365
  let y := yoe + era * 400
  let doy := doe - (365 * yoe + yoe.ediv 4 - yoe.ediv 100)
  let mp := (5 * doy + 2).ediv 153
  let d := doy - (153 * mp + 2).ediv 5 + 1
  let m := mp + (if mp < 10 then 3 else (-9 : Int))
  (y + (if m ≤ 2 then 1 else 0), m, d)

/-- Zero-padding to two digits (month, day, hours, minutes). -/
def pad2 (n : Nat) : List Char :=
  if n < 10 then '0' :: natToDec n else natToDec n

/-- Zero-padding to four digits (year). -/
def pad4 (n : Nat) : List Char :=
  List.replicate (4 - (natToDec n).length) '0' ++ natToDec n

/-- Character list of the date part of `new Date(ms).toISOString()`:
"YYYY-MM-DD" in UTC (model valid for timestamps whose year is in 0..9999,
where toISOString uses the unsigned four-digit year form). -/
def isoDateChars (ms : Int) : List Char :=
  let c := civilFromDays (ms.ediv 86400000)
  pad4 c.1.toNat ++ '-' :: (pad2 c.2.1.toNat ++ '-' :: pad2 c.2.2.toNat)

/-- Date part of `new Date(ms).toISOString()`, the `dateStr` of the script. -/
def isoDate (ms : Int) : String := ⟨isoDateChars ms⟩

/-- Local-time "HH:MM" of a timestamp: the script computes
`date.toTimeString().split(' ')[0].slice(0, 5)`, which renders hours and
minutes in the host time zone; `tzOffsetMin` is that zone's offset from UTC
in minutes. -/
def localHHMM (tzOffsetMin : Int) (ms : Int) : String :=
  let t := ms + tzOffsetMin * 60000
  let msod := t.emod 86400000
  ⟨pad2 (msod.ediv 3600000).toNat ++ ':' :: pad2 ((msod.ediv 60000).emod 60).toNat⟩

/-- JavaScript `f.endsWith(".mdx")`. -/
def endsWithMdx (f : String) : Bool :=
  decide (f.data.drop (f.data.length - 4) = ".mdx".data)

/-- JavaScript `f.startsWith("_")`. -/
def startsWithUnderscore (f : String) : Bool :=
  match f.data with
  | c :: _ => decide (c = '_')
  | [] => false

/-- One attempt of the regular expression `-(\d+)\.mdx$` at the current
position: it succeeds exactly when the list starts with a dash followed by
one or more digits and then exactly ".mdx" ending the string, and captures
the digits.  (The greedy `\d+` cannot stop early: the character after any
proper digit prefix is another digit, not the required dot.) -/
def matchDashDigitsAt (cs : List Char) : Option (List Char) :=
  match cs with
  | [] => none
  | c :: rest =>
    if c = '-' then
      if rest.takeWhile Char.isDigit ≠ [] ∧
          rest.drop (rest.takeWhile Char.isDigit).length = ".mdx".data then
        some (rest.takeWhile Char.isDigit)
      else none
    else none

/-- Leftmost match of `-(\d+)\.mdx$`, as `String#match` finds it: the
first position (scanning left to right) where the pattern matches, with its
capture group. -/
def firstDashDigits : List Char → Option (List Char)
  | [] => none
  | c :: rest =>
    match matchDashDigitsAt (c :: rest) with
    | some d => some d
    | none => firstDashDigits rest

/-- Embedded identifier of a file name, as `cleanupOldFiles` computes it:
`file.match(-(\d+)\.mdx$)` followed by `parseInt` on the capture group. -/
def extractId (f : String) : Option Nat :=
  (firstDashDigits f.data).map digitsVal

/-- Decision `cleanupOldFiles` takes for one file name: `true` when the file
survives the reconciliation, `false` when it is unlinked. -/
def keepFile (validIds : List Nat) (f : String) : Bool :=
  if endsWithMdx f = true ∧ startsWithUnderscore f = false then
    match extractId f with
    | some n => decide (n ∈ validIds)
    | none => true
  else true

/-- The reconciliation step `cleanupOldFiles(dir, validIds)`: the surviving
directory entries, and the number of files removed (its return value). -/
def cleanupOldFiles (dir : List (String × String)) (validIds : List Nat) :
    List (String × String) × Nat :=
  let kept := dir.filter fun e => keepFile validIds e.1
  (kept, dir.length - kept.length)

/-- Names present in a directory. -/
def dirNames (dir : List (String × String)) : List String := dir.map Prod.fst

/-! ## JSON

`JSON.parse` is embedded as a recursive-descent parser producing a `Json`
tree.  A number keeps its source lexeme (the generator never uses numeric
values of parsed fields), a string is decoded with the standard escapes
(the two halves of a surrogate-pair escape decode to placeholder code
points — no claim depends on non-BMP text).  Parsing is total via a fuel
argument; the fuel `2·length + 2` dominates the recursion depth on every
input, so no parse is ever cut short. -/
inductive Json where
  | null
  | bool (b : Bool)
  | num (raw : String)
  | str (s : String)
  | arr (elems : List Json)
  | obj (fields : List (String × Json))
deriving Inhabited

/-- Opening curly bracket character. -/
def lbrace : Char := Char.ofNat 123

/-- Closing curly bracket character. -/
def rbrace : Char := Char.ofNat 125

/-- JSON insignificant whitespace. -/
def isJsonWs (c : Char) : Bool :=
  c == ' ' || c == '\t' || c == '\n' || c == '\r'

/-- Skip insignificant whitespace. -/
def skipWs : List Char → List Char
  | [] => []
  | c :: cs => if isJsonWs c then skipWs cs else c :: cs

/-- Value of a hexadecimal digit. -/
def hexVal (c : Char) : Option Nat :=
  if '0' ≤ c ∧ c ≤ '9' then some (c.toNat - 48)
  else if 'a' ≤ c ∧ c ≤ 'f' then some (c.toNat - 87)
  else if 'A' ≤ c ∧ c ≤ 'F' then some (c.toNat - 55)
  else none

/-- Body of a JSON string after the opening quote: decoded characters plus
the remaining input after the closing quote.  Unescaped control characters
and unknown escapes are syntax errors, as in `JSON.parse`. -/
def parseStringBody : List Char → Option (List Char × List Char)
  | [] => none
  | c :: cs =>
    if c = '"' then some ([], cs)
    else if c = '\\' then
      match cs with
      | [] => none
      | e :: cs2 =>
        if e = '"' ∨ e = '\\' ∨ e = '/' then
          (parseStringBody cs2).map fun r => (e :: r.1, r.2)
        else if e = 'b' then
          (parseStringBody cs2).map fun r => (Char.ofNat 8 :: r.1, r.2)
        else if e = 'f' then
          (parseStringBody cs2).map fun r => (Char.ofNat 12 :: r.1, r.2)
        else if e = 'n' then
          (parseStringBody cs2).map fun r => ('\n' :: r.1, r.2)
        else if e = 'r' then
          (parseStringBody cs2).map fun r => ('\r' :: r.1, r.2)
        else if e = 't' then
          (parseStringBody cs2).map fun r => ('\t' :: r.1, r.2)
        else if e = 'u' then
          match cs2 with
          | h1 :: h2 :: h3 :: h4 :: cs3 =>
            match hexVal h1, hexVal h2, hexVal h3, hexVal h4 with
            | some a, some b, some c2, some d =>
              (parseStringBody cs3).map fun r =>
                (Char.ofNat (((a * 16 + b) * 16 + c2) * 16 + d) :: r.1, r.2)
            | _, _, _, _ => none
          | _ => none
        else none
    else if c.toNat < 32 then none
    else (parseStringBody cs).map fun r => (c :: r.1, r.2)

/-- Optional fraction part of a JSON number. -/
def parseFracPart (cs : List Char) : Option (List Char × List Char) :=
  match cs with
  | [] => some ([], [])
  | c :: rest =>
    if c = '.' then
      if rest.takeWhile Char.isDigit = [] then none
      else some (c :: rest.takeWhile Char.isDigit, rest.dropWhile Char.isDigit)
    else some ([], cs)

/-- Optional exponent part of a JSON number. -/
def parseExpPart (cs : List Char) : Option (List Char × List Char) :=
  match cs with
  | [] => some ([], [])
  | c :: rest =>
    if c = 'e' ∨ c = 'E' then
      match rest with
      | [] => none
      | s :: rest2 =>
        if s = '+' ∨ s = '-' then
          if rest2.takeWhile Char.isDigit = [] then none
          else some (c :: s :: rest2.takeWhile Char.isDigit,
            rest2.dropWhile Char.isDigit)
        else
          if rest.takeWhile Char.isDigit = [] then none
          else some (c :: rest.takeWhile Char.isDigit, rest.dropWhile Char.isDigit)
    else some ([], cs)

/-- Unsigned part of a JSON number (no leading zeros, as in the grammar). -/
def parseNumMag (cs : List Char) : Option (List Char × List Char) :=
  match cs with
  | [] => none
  | c :: rest =>
    if c = '0' then do
      let (f, r1) ← parseFracPart rest
      let (e, r2) ← parseExpPart r1
      pure ('0' :: (f ++ e), r2)
    else if c.isDigit then do
      let (f, r1) ← parseFracPart (rest.dropWhile Char.isDigit)
      let (e, r2) ← parseExpPart r1
      pure (c :: rest.takeWhile Char.isDigit ++ f ++ e, r2)
    else none

/-- Lexeme of a JSON number (optional minus sign, then magnitude). -/
def parseNumLexeme (cs : List Char) : Option (List Char × List Char) :=
  match cs with
  | [] => none
  | c :: rest =>
    if c = '-' then (parseNumMag rest).map fun r => ('-' :: r.1, r.2)
    else parseNumMag (c :: rest)

mutual

/-- Parse one JSON value (after skipping leading whitespace). -/
def parseValue : Nat → List Char → Option (Json × List Char)
  | 0, _ => none
  | fuel + 1, cs0 =>
    match skipWs cs0 with
    | [] => none
    | c :: cs =>
      if c = '"' then (parseStringBody cs).map fun r => (Json.str ⟨r.1⟩, r.2)
      else if c = '[' then
        match skipWs cs with
        | ']' :: rest => some (Json.arr [], rest)
        | cs2 => (parseElems fuel cs2).map fun r => (Json.arr r.1, r.2)
      else if c = lbrace then
        match skipWs cs with
        | [] => none
        | c2 :: rest =>
          if c2 = rbrace then some (Json.obj [], rest)
          else (parseFields fuel (c2 :: rest)).map fun r => (Json.obj r.1, r.2)
      else if c = 't' then
        match cs with
        | 'r' :: 'u' :: 'e' :: rest => some (Json.bool true, rest)
        | _ => none
      else if c = 'f' then
        match cs with
        | 'a' :: 'l' :: 's' :: 'e' :: rest => some (Json.bool false, rest)
        | _ => none
      else if c = 'n' then
        match cs with
        | 'u' :: 'l' :: 'l' :: rest => some (Json.null, rest)
        | _ => none
      else if c = '-' ∨ c.isDigit then
        (parseNumLexeme (c :: cs)).map fun r => (Json.num ⟨r.1⟩, r.2)
      else none

/-- Parse the elements of a nonempty JSON array, up to and including the
closing bracket. -/
def parseElems : Nat → List Char → Option (List Json × List Char)
  | 0, _ => none
  | fuel + 1, cs => do
    let (v, r) ← parseValue fuel cs
    match skipWs r with
    | ',' :: rest => do
      let (vs, r2) ← parseElems fuel rest
      pure (v :: vs, r2)
    | ']' :: rest => pure ([v], rest)
    | _ => none

/-- Parse the members of a nonempty JSON object, up to and including the
closing bracket. -/
def parseFields : Nat → List Char → Option (List (String × Json) × List Char)
  | 0, _ => none
  | fuel + 1, cs =>
    match skipWs cs with
    | [] => none
    | q :: cs2 =>
      if q = '"' then do
        let (k, r1) ← parseStringBody cs2
        match skipWs r1 with
        | ':' :: r2 => do
          let (v, r3) ← parseValue fuel r2
          match skipWs r3 with
          | ',' :: r4 => do
            let (fs, r5) ← parseFields fuel r4
            pure ((⟨k⟩, v) :: fs, r5)
          | c5 :: r6 => if c5 = rbrace then pure ([(⟨k⟩, v)], r6) else none
          | [] => none
        | _ => none
      else none

end

/-- The embedding of `JSON.parse(s)`: `none` is the thrown SyntaxError. -/
def jsonParse (s : String) : Option Json :=
  match parseValue (2 * s.data.length + 2) s.data with
  | some (v, rest) => if skipWs rest = [] then some v else none
  | none => none

/-- Escape one character of a string for `JSON.stringify`. -/
def jsonEscChar (c : Char) : List Char :=
  if c = '"' then ['\\', '"']
  else if c = '\\' then ['\\', '\\']
  else if c = '\n' then ['\\', 'n']
  else if c = '\r' then ['\\', 'r']
  else if c = '\t' then ['\\', 't']
  else if c = Char.ofNat 8 then ['\\', 'b']
  else if c = Char.ofNat 12 then ['\\', 'f']
  else if c.toNat < 32 then
    '\\' :: 'u' :: '0' :: '0' ::
      Char.ofNat (if c.toNat / 16 < 10 then 48 + c.toNat / 16 else 87 + c.toNat / 16) ::
      [Char.ofNat (if c.toNat % 16 < 10 then 48 + c.toNat % 16 else 87 + c.toNat % 16)]
  else [c]

mutual

/-- The embedding of `JSON.stringify` on a parsed JSON value.  (A number is
re-emitted as its source lexeme rather than re-serialized from a float; the
generator only ever compares whole files, never number spellings.) -/
def jsonStringify : Json → String
  | .null => "null"
  | .bool true => "true"
  | .bool false => "false"
  | .num raw => raw
  | .str s => ⟨'"' :: (s.data.foldr (fun c acc => jsonEscChar c ++ acc) ['"'])⟩
  | .arr xs => "[" ++ stringifyElems xs ++ "]"
  | .obj fs => "\x7b" ++ stringifyFields fs ++ "\x7d"

/-- Comma-separated serialization of array elements. -/
def stringifyElems : List Json → String
  | [] => ""
  | [x] => jsonStringify x
  | x :: y :: xs => jsonStringify x ++ "," ++ stringifyElems (y :: xs)

/-- Comma-separated serialization of object members. -/
def stringifyFields : List (String × Json) → String
  | [] => ""
  | [(k, v)] => jsonStringify (.str k) ++ ":" ++ jsonStringify v
  | (k, v) :: f :: fs =>
    jsonStringify (.str k) ++ ":" ++ jsonStringify v ++ "," ++ stringifyFields (f :: fs)

end

mutual

/-- String conversion a JSON value undergoes inside a template literal
(`${v}`): strings verbatim, numbers by their lexeme, arrays joined with
commas, plain objects as "[object Object]". -/
def jsDisplay : Json → String
  | .null => "null"
  | .bool true => "true"
  | .bool false => "false"
  | .num raw => raw
  | .str s => s
  | .arr xs => displayElems xs
  | .obj _ => "[object Object]"

/-- `Array#join(",")`: members via string conversion, null as empty. -/
def displayElems : List Json → String
  | [] => ""
  | [x] => displayElem x
  | x :: y :: xs => displayElem x ++ "," ++ displayElems (y :: xs)

/-- One member under `Array#join`. -/
def displayElem : Json → String
  | .null => ""
  | j => jsDisplay j

end

/-- Display of a possibly-undefined value in a template literal. -/
def jsDisplayOpt : Option Json → String
  | none => "undefined"
  | some j => jsDisplay j

/-- JavaScript property read `v.k` on a parsed JSON value: an object yields
the member (or undefined, modelled `none`); reading off `null` throws a
TypeError, which aborts the run; any other value yields undefined. -/
def getProp : Json → String → Except String (Option Json)
  | .null, k => .error ("TypeError: Cannot read properties of null (reading \x27" ++ k ++ "\x27)")
  | .obj fs, k => .ok (fs.lookup k)
  | _, _ => .ok none

/-- JavaScript `v.length` rendered into the template: arrays and strings
have a length, reading off `null` throws, anything else is undefined. -/
def lenProp : Json → Except String String
  | .null => .error "TypeError: Cannot read properties of null (reading \x27length\x27)"
  | .arr xs => .ok (natToDecStr xs.length)
  | .str s => .ok (natToDecStr s.data.length)
  | _ => .ok "undefined"

/-- JavaScript `v.map(...)`: only an array has the method; calling it on any
other value throws a TypeError, which aborts the run. -/
def asArrayProp : Json → Except String (List Json)
  | .arr xs => .ok xs
  | .null => .error "TypeError: Cannot read properties of null (reading \x27map\x27)"
  | _ => .error "TypeError: .map is not a function"

/-! ## Rows and rendering

The two queries return rows ordered by `created_at DESC`; a row is embedded
with its column values (`created_at` as the epoch-millisecond value of
`new Date(row.created_at).getTime()`, assumed a valid date; a nullable
column as an `Option`). -/
structure SwotRow where
  id : Nat
  created_at : Int
  source_file : String
  strengths_json : Option String
  weaknesses_json : Option String
  opportunities_json : Option String
  threats_json : Option String
  strategic_so_json : Option String
  strategic_wo_json : Option String
  strategic_st_json : Option String
  strategic_wt_json : Option String
  context_content : Option String
deriving Repr

structure CompRow where
  id : Nat
  created_at : Int
  old_swot_id : Nat
  new_swot_id : Nat
  items_json : Option String
  summary : Option String
deriving Repr

/-- The argument handed to `JSON.parse` for a structured column:
`row.x_json || '[]'` substitutes `'[]'` for a missing (null) or empty
(falsy) value. -/
def jsonArgOf : Option String → String
  | none => "[]"
  | some s => if s = "" then "[]" else s

/-- Parse of one structured column: `JSON.parse(row.x_json || '[]')`. -/
def parseStructured (f : Option String) : Option Json :=
  jsonParse (jsonArgOf f)

/-- Parse of one structured column in the `Except` monad of the run: a
`none` parse is the SyntaxError thrown out of the `forEach` body. -/
def parseFieldE (f : Option String) : Except String Json :=
  match parseStructured f with
  | some j => .ok j
  | none => .error "SyntaxError: Unexpected token in JSON"

/-- JavaScript `row.summary || ''`. -/
def orEmptyStr : Option String → String
  | none => ""
  | some s => s

/-- Deterministic file name stem: `${dateStr}-${row.id}`. -/
def slugOf (ms : Int) (id : Nat) : String :=
  isoDate ms ++ "-" ++ natToDecStr id

/-- Ordering weight written into the front matter:
`sidebar_position: ${1000 - row.id}`, identical for both record kinds. -/
def sidebarPosition (id : Nat) : Int := 1000 - (id : Int)

/-- One numbered item of a details transcript:
```text
### ${i + 1}. ${s.text}

> ${s.reasoning}
```
with property reads that can throw on a null item. -/
def renderItem (i : Nat) (s : Json) : Except String String := do
  let t ← getProp s "text"
  let r ← getProp s "reasoning"
  pure ("\n### " ++ natToDecStr (i + 1) ++ ". " ++ jsDisplayOpt t ++ "\n\n> " ++
    jsDisplayOpt r ++ "\n")

/-- The mapped transcript items, in order. -/
def renderItems : List Json → Nat → Except String (List String)
  | [], _ => .ok []
  | s :: rest, i => do
    let x ← renderItem i s
    let xs ← renderItems rest (i + 1)
    pure (x :: xs)

/-- One `<details>` block of the transcript: the category label with the
item count, then the mapped items joined with newlines. -/
def detailsBlock (label : String) (j : Json) : Except String String := do
  let len ← lenProp j
  let items ← asArrayProp j
  let rendered ← renderItems items 0
  pure ("<details>\n<summary>" ++ label ++ " (" ++ len ++ ")</summary>\n\n" ++
    String.intercalate "\n" rendered ++ "\n\n</details>\n")

/-- The `<SwotStats .../>` and `<SwotMatrix .../>` property block shared by
both components. -/
def swotPropsBlock (strengths weaknesses opportunities threats : Json) : String :=
  "\n  strengths=\x7b" ++ jsonStringify strengths ++
  "\x7d\n  weaknesses=\x7b" ++ jsonStringify weaknesses ++
  "\x7d\n  opportunities=\x7b" ++ jsonStringify opportunities ++
  "\x7d\n  threats=\x7b" ++ jsonStringify threats ++ "\x7d\n/>"

/-- The complete MDX text generated for one analysis row (the template
literal of generate-docs.js lines 109-208), or the TypeError/SyntaxError
aborting the run. -/
def buildSwotContent (tz : Int) (index : Nat) (row : SwotRow) :
    Except String String := do
  let dateStr := isoDate row.created_at
  let timeStr := localHHMM tz row.created_at
  let isLatest := index == 0
  let strengths ← parseFieldE row.strengths_json
  let weaknesses ← parseFieldE row.weaknesses_json
  let opportunities ← parseFieldE row.opportunities_json
  let threats ← parseFieldE row.threats_json
  let strategicSO ← parseFieldE row.strategic_so_json
  let strategicWO ← parseFieldE row.strategic_wo_json
  let strategicST ← parseFieldE row.strategic_st_json
  let strategicWT ← parseFieldE row.strategic_wt_json
  let sBlock ← detailsBlock "Сильные стороны" strengths
  let wBlock ← detailsBlock "Слабые стороны" weaknesses
  let oBlock ← detailsBlock "Возможности" opportunities
  let tBlock ← detailsBlock "Угрозы" threats
  pure ("---\nsidebar_position: " ++ intToDecStr (sidebarPosition row.id) ++
    "\ntitle: \"" ++ (if isLatest then "🆕 " else "") ++ dateStr ++ " — " ++
    row.source_file ++
    "\"\ndescription: \"SWOT-анализ от " ++ dateStr ++ " " ++ timeStr ++
    "\"\n---\n\nimport SwotMatrix, \x7b SwotStats \x7d from \x27@site/src/components/SwotMatrix\x27;\nimport StrategicPairs from \x27@site/src/components/StrategicPairs\x27;\n\n# SWOT-анализ: " ++
    row.source_file ++
    "\n\n📅 **Дата:** " ++ dateStr ++ " " ++ timeStr ++
    "  \n📄 **Источник:** `" ++ row.source_file ++
    "`  \n🆔 **ID:** " ++ natToDecStr row.id ++
    "\n\n---\n\n## 📊 Обзор\n\n<SwotStats " ++
    swotPropsBlock strengths weaknesses opportunities threats ++
    "\n\n---\n\n## 🎯 SWOT-матрица\n\n<SwotMatrix " ++
    swotPropsBlock strengths weaknesses opportunities threats ++
    "\n\n:::tip Подсказка\nНаведите на пункт, чтобы увидеть обоснование\n:::\n\n---\n\n## 🧭 Стратегическое сопоставление\n\n<StrategicPairs \n  so=\x7b" ++
    jsonStringify strategicSO ++ "\x7d\n  wo=\x7b" ++ jsonStringify strategicWO ++
    "\x7d\n  st=\x7b" ++ jsonStringify strategicST ++ "\x7d\n  wt=\x7b" ++
    jsonStringify strategicWT ++
    "\x7d\n/>\n\n---\n\n## 📝 Детали\n\n" ++
    sBlock ++ "\n" ++ wBlock ++ "\n" ++ oBlock ++ "\n" ++ tBlock)

/-- The complete MDX text generated for one comparison row (the template
literal of generate-docs.js lines 242-261). -/
def buildCompContent (tz : Int) (index : Nat) (row : CompRow) :
    Except String String := do
  let dateStr := isoDate row.created_at
  let timeStr := localHHMM tz row.created_at
  let isLatest := index == 0
  let items ← parseFieldE row.items_json
  pure ("---\nsidebar_position: " ++ intToDecStr (sidebarPosition row.id) ++
    "\ntitle: \"" ++ (if isLatest then "🆕 " else "") ++ "Сравнение " ++ dateStr ++
    "\"\ndescription: \"Сравнение SWOT #" ++ natToDecStr row.old_swot_id ++
    " → #" ++ natToDecStr row.new_swot_id ++
    "\"\n---\n\nimport ComparisonTimeline, \x7b ComparisonStats \x7d from \x27@site/src/components/ComparisonTimeline\x27;\n\n# Сравнение SWOT-анализов\n\n📅 **Дата:** " ++
    dateStr ++ " " ++ timeStr ++
    "  \n🔄 **Версии:** #" ++ natToDecStr row.old_swot_id ++ " → #" ++
    natToDecStr row.new_swot_id ++
    "\n\n---\n\n<ComparisonTimeline \n  items=\x7b" ++ jsonStringify items ++
    "\x7d\n  summary=\x7b" ++ jsonStringify (.str (orEmptyStr row.summary)) ++
    "\x7d\n/>\n")

/-- The view-model of one output document: its slug, file name, "latest"
flag, ordering weight, and full text. -/
structure Rendered where
  slug : String
  fileName : String
  isLatest : Bool
  weight : Int
  content : String

/-- Transform of one analysis row at its rank in the listing. -/
def renderSwot (tz : Int) (index : Nat) (row : SwotRow) :
    Except String Rendered :=
  match buildSwotContent tz index row with
  | .error e => .error e
  | .ok content =>
    .ok { slug := slugOf row.created_at row.id
          fileName := slugOf row.created_at row.id ++ ".mdx"
          isLatest := index == 0
          weight := sidebarPosition row.id
          content := content }

/-- Transform of one comparison row at its rank in the listing. -/
def renderComp (tz : Int) (index : Nat) (row : CompRow) :
    Except String Rendered :=
  match buildCompContent tz index row with
  | .error e => .error e
  | .ok content =>
    .ok { slug := slugOf row.created_at row.id
          fileName := slugOf row.created_at row.id ++ ".mdx"
          isLatest := index == 0
          weight := sidebarPosition row.id
          content := content }

/-- File name emitted for one analysis row, `${slug}.mdx`. -/
def swotFileName (row : SwotRow) : String :=
  slugOf row.created_at row.id ++ ".mdx"

/-- File name emitted for one comparison row, `${slug}.mdx`. -/
def compFileName (row : CompRow) : String :=
  slugOf row.created_at row.id ++ ".mdx"

/-- Content stored under a name, if present. -/
def lookupFile : List (String × String) → String → Option String
  | [], _ => none
  | e :: rest, n => if e.1 = n then some e.2 else lookupFile rest n

/-- The embedding of `fs.writeFileSync(path, content)`: overwrites
unconditionally — replaces the entry when the name exists, appends it
otherwise. -/
def writeFile : List (String × String) → String → String → List (String × String)
  | [], n, c => [(n, c)]
  | e :: rest, n, c => if e.1 = n then (n, c) :: rest else e :: writeFile rest n c

/-- The per-row `forEach` loop of one pass: renders each row at its rank
and writes `${slug}.mdx`; a thrown SyntaxError/TypeError stops the loop,
leaving the files already written. -/
def runEmit {α : Type} (render : Nat → α → Except String Rendered) :
    Nat → List α → List (String × String) →
    List (String × String) × Option String
  | _, [], dir => (dir, none)
  | i, r :: rs, dir =>
    match render i r with
    | .error e => (dir, some e)
    | .ok out => runEmit render (i + 1) rs (writeFile dir out.fileName out.content)

/-- The analyses pass (`swotRows.forEach`). -/
def runSwotEmit (tz : Int) : Nat → List SwotRow → List (String × String) →
    List (String × String) × Option String :=
  runEmit (renderSwot tz)

/-- The comparisons pass (`compRows.forEach`). -/
def runCompEmit (tz : Int) : Nat → List CompRow → List (String × String) →
    List (String × String) × Option String :=
  runEmit (renderComp tz)

/-- The observable state the script runs against: whether the configured
database path exists, the rows the two queries would return (already in
`created_at DESC` order, as `ORDER BY` produces them), the two output
directories, and the host time-zone offset used by `toTimeString`. -/
structure World where
  dbPath : String
  storeExists : Bool
  tzOffsetMin : Int
  swotRows : List SwotRow
  compRows : List CompRow
  swotDir : List (String × String)
  compDir : List (String × String)

/-- The observable outcome of one invocation: process exit code, whether a
database connection was opened, both directories afterwards, the two removal
counts reported by `cleanupOldFiles`, the uncaught exception if one aborted
the run, and the diagnostic lines printed on the missing-store path. -/
structure RunResult where
  exitCode : Nat
  connectionOpened : Bool
  swotDir : List (String × String)
  compDir : List (String × String)
  removedSwot : Nat
  removedComp : Nat
  fatal : Option String
  errLog : List String

/-- The whole `generate-docs.js` run as one pure function.  `now` is the
wall clock available to the process; the generator never reads it.  The
missing-store branch exits with code 1 before any connection is opened;
afterwards the analyses pass runs (emit, then reconcile), then the
comparisons pass; an uncaught exception stops everything downstream of the
point where it is thrown and the process exits nonzero. -/
def runPipeline (now : Int) (w : World) : RunResult :=
  if w.storeExists then
    match runSwotEmit w.tzOffsetMin 0 w.swotRows w.swotDir with
    | (d1, some msg) =>
      { exitCode := 1, connectionOpened := true, swotDir := d1,
        compDir := w.compDir, removedSwot := 0, removedComp := 0,
        fatal := some msg, errLog := [] }
    | (d1, none) =>
      match cleanupOldFiles d1 (w.swotRows.map fun r => r.id) with
      | (d1c, rem1) =>
        match runCompEmit w.tzOffsetMin 0 w.compRows w.compDir with
        | (d2, some msg) =>
          { exitCode := 1, connectionOpened := true, swotDir := d1c,
            compDir := d2, removedSwot := rem1, removedComp := 0,
            fatal := some msg, errLog := [] }
        | (d2, none) =>
          match cleanupOldFiles d2 (w.compRows.map fun r => r.id) with
          | (d2c, rem2) =>
            { exitCode := 0, connectionOpened := true, swotDir := d1c,
              compDir := d2c, removedSwot := rem1, removedComp := rem2,
              fatal := none, errLog := [] }
  else
    { exitCode := 1, connectionOpened := false, swotDir := w.swotDir,
      compDir := w.compDir, removedSwot := 0, removedComp := 0,
      fatal := none,
      errLog := ["❌ База данных не найдена: " ++ w.dbPath,
        "💡 Укажите путь: node generate-docs.js --db /path/to/swot.db"] }

/-- Value of one base64 alphabet character. -/
def b64Val (c : Char) : Option Nat :=
  if 'A' ≤ c ∧ c ≤ 'Z' then some (c.toNat - 65)
  else if 'a' ≤ c ∧ c ≤ 'z' then some (c.toNat - 71)
  else if '0' ≤ c ∧ c ≤ '9' then some (c.toNat + 4)
  else if c = '+' then some 62
  else if c = '/' then some 63
  else none

/-- Decode a run of base64 values into bytes, four values to three bytes,
with the final partial group contributing its complete bytes. -/
def b64Groups : List Nat → List Nat
  | a :: b :: c :: d :: rest =>
    (a * 4 + b / 16) :: ((b % 16) * 16 + c / 4) :: ((c % 4) * 64 + d) ::
      b64Groups rest
  | [a, b, c] => [a * 4 + b / 16, (b % 16) * 16 + c / 4]
  | [a, b] => [a * 4 + b / 16]
  | _ => []

/-- The embedding of `Buffer.from(s, 'base64')` on well-formed input:
decoding stops at the first padding sign and skips characters outside the
alphabet. -/
def b64decode (s : String) : List Nat :=
  b64Groups ((s.data.takeWhile fun c => c ≠ '=').filterMap b64Val)

/-- JavaScript `String#split(":")` carried over to the byte level: split on
every colon byte; a colon never occurs inside a multi-byte UTF-8 sequence,
so the fields agree with the string-level split. -/
def splitOnByte (sep : Nat) : List Nat → List (List Nat)
  | [] => [[]]
  | b :: rest =>
    match splitOnByte sep rest with
    | [] => [[]]
    | p :: ps => if b = sep then [] :: p :: ps else (b :: p) :: ps

/-- JavaScript `auth.startsWith("Basic ")`. -/
def hasBasicScheme : List Char → Bool
  | 'B' :: 'a' :: 's' :: 'i' :: 'c' :: ' ' :: _ => true
  | _ => false

/-- The credential comparison of the proxy:
`const [user, pass] = credentials.split(':')` followed by
`user === USER && pass === PASSWORD` (the request handler rejects on the
negation).  `pass` is undefined — never equal to a string — when the
decoded credentials contain no colon. -/
def authDecision (userBytes passBytes : List Nat) (header : String) : Bool :=
  decide ((splitOnByte 58 (b64decode (header.drop 6))).headD [] = userBytes ∧
    (splitOnByte 58 (b64decode (header.drop 6)))[1]? = some passBytes)

/-- Outcome of one plain HTTP request at the proxy. -/
inductive HttpOutcome where
  | challenge401
  | forwarded
deriving Repr, DecidableEq

/-- Outcome of one connection-upgrade request at the proxy. -/
inductive UpgradeOutcome where
  | socketDestroyed
  | forwardedWs
deriving Repr, DecidableEq

/-- The `http.createServer` handler: no header or a non-Basic header gets
the 401 challenge; then the credential comparison decides between the 401
challenge and proxying to the Docusaurus process. -/
def handleRequest (userBytes passBytes : List Nat) (auth : Option String) :
    HttpOutcome :=
  match auth with
  | none => .challenge401
  | some s =>
    if hasBasicScheme s.data then
      if authDecision userBytes passBytes s then .forwarded else .challenge401
    else .challenge401

/-- The `server.on('upgrade')` handler: forwards the socket on the same
credential comparison and destroys it otherwise. -/
def handleUpgrade (userBytes passBytes : List Nat) (auth : Option String) :
    UpgradeOutcome :=
  match auth with
  | none => .socketDestroyed
  | some s =>
    if hasBasicScheme s.data then
      if authDecision userBytes passBytes s then .forwardedWs else .socketDestroyed
    else .socketDestroyed

/-- All eight structured columns of an analysis row parse. -/
def structuredParsesSwot (r : SwotRow) : Prop :=
  (parseStructured r.strengths_json).isSome = true ∧
  (parseStructured r.weaknesses_json).isSome = true ∧
  (parseStructured r.opportunities_json).isSome = true ∧
  (parseStructured r.threats_json).isSome = true ∧
  (parseStructured r.strategic_so_json).isSome = true ∧
  (parseStructured r.strategic_wo_json).isSome = true ∧
  (parseStructured r.strategic_st_json).isSome = true ∧
  (parseStructured r.strategic_wt_json).isSome = true

/-- All eight structured columns of an analysis row are missing or empty. -/
def allStructuredMissing (r : SwotRow) : Prop :=
  (r.strengths_json = none ∨ r.strengths_json = some "") ∧
  (r.weaknesses_json = none ∨ r.weaknesses_json = some "") ∧
  (r.opportunities_json = none ∨ r.opportunities_json = some "") ∧
  (r.threats_json = none ∨ r.threats_json = some "") ∧
  (r.strategic_so_json = none ∨ r.strategic_so_json = some "") ∧
  (r.strategic_wo_json = none ∨ r.strategic_wo_json = some "") ∧
  (r.strategic_st_json = none ∨ r.strategic_st_json = some "") ∧
  (r.strategic_wt_json = none ∨ r.strategic_wt_json = some "")

/-- Modelled from the spec: a request "carries the configured static
credential pair via the standard challenge/response header" when its
authorization header has the Basic scheme and the decoded payload is
exactly `user ":" password` (RFC 7617: the password is everything after the
first colon).  This is the specification-side predicate that `handleRequest`
is compared against. -/
def carriesBasicPair (userBytes passBytes : List Nat) (header : String) : Bool :=
  hasBasicScheme header.data &&
    decide (b64decode (header.drop 6) = userBytes ++ 58 :: passBytes)

/-- An analysis row with identifier 7, created 2024-03-01T10:00:00Z, all
structured columns missing. -/
def emptyRow7 : SwotRow :=
  { id := 7, created_at := 1709287200000, source_file := "doc.md",
    strengths_json := none, weaknesses_json := none,
    opportunities_json := none, threats_json := none,
    strategic_so_json := none, strategic_wo_json := none,
    strategic_st_json := none, strategic_wt_json := none,
    context_content := none }

/-- A comparison row with identifier 5, created 2024-03-01T10:00:00Z, items
column missing. -/
def emptyComp5 : CompRow :=
  { id := 5, created_at := 1709287200000, old_swot_id := 1, new_swot_id := 2,
    items_json := none, summary := none }

/-- The rendered document of `emptyRow7` at rank 0. -/
def emptyRow7Out : Rendered :=
  match renderSwot 0 0 emptyRow7 with
  | .ok o => o
  | .error _ =>
    { slug := "", fileName := "", isLatest := false, weight := 0, content := "" }

/-- The rendered document of `emptyRow7` at rank 1. -/
def emptyRow7Out1 : Rendered :=
  match renderSwot 0 1 emptyRow7 with
  | .ok o => o
  | .error _ =>
    { slug := "", fileName := "", isLatest := false, weight := 0, content := "" }

/-- The rendered document of `emptyComp5` at rank 0. -/
def emptyComp5Out : Rendered :=
  match renderComp 0 0 emptyComp5 with
  | .ok o => o
  | .error _ =>
    { slug := "", fileName := "", isLatest := false, weight := 0, content := "" }

/-- The world of the C6 witness: a missing store. -/
def missingStoreWorld : World :=
  { dbPath := "/tmp/absent/swot.db", storeExists := false, tzOffsetMin := 0,
    swotRows := [emptyRow7], compRows := [emptyComp5],
    swotDir := [("2020-01-01-9.mdx", "stale")], compDir := [] }

/-- The analysis row and pre-existing file of the C1 counterexample: the
valid record has identifier 3 but was created 2024-03-01, while the old file
name carries the date 1999-01-01 with the same embedded identifier. -/
def c1Row3 : SwotRow :=
  { id := 3, created_at := 1709287200000, source_file := "doc.md",
    strengths_json := none, weaknesses_json := none,
    opportunities_json := none, threats_json := none,
    strategic_so_json := none, strategic_wo_json := none,
    strategic_st_json := none, strategic_wt_json := none,
    context_content := none }

/-- The world of the C1 counterexample. -/
def c1World : World :=
  { dbPath := "../swot.db", storeExists := true, tzOffsetMin := 0,
    swotRows := [c1Row3], compRows := [],
    swotDir := [("1999-01-01-3.mdx", "old content")], compDir := [] }

/-- The malformed analysis row of the C2 counterexample: its strengths
column holds the unparseable text "[". -/
def c2BadRow : SwotRow :=
  { id := 8, created_at := 1709100000000, source_file := "doc2.md",
    strengths_json := some "[", weaknesses_json := none,
    opportunities_json := none, threats_json := none,
    strategic_so_json := none, strategic_wo_json := none,
    strategic_st_json := none, strategic_wt_json := none,
    context_content := none }

/-- The world of the C2 counterexample: a well-formed row first, then the
malformed one, over an initially empty directory. -/
def c2World : World :=
  { dbPath := "../swot.db", storeExists := true, tzOffsetMin := 0,
    swotRows := [emptyRow7, c2BadRow], compRows := [],
    swotDir := [], compDir := [] }

/-- The world of the C2 witness: both listings contain one well-formed row
with every structured column missing. -/
def c2GoodWorld : World :=
  { dbPath := "../swot.db", storeExists := true, tzOffsetMin := 0,
    swotRows := [emptyRow7], compRows := [emptyComp5],
    swotDir := [], compDir := [] }

/-- The world of the C7 witness: one row of each kind over a directory that
also holds a protected file, a non-matching file and a stale generated
file. -/
def c7World : World :=
  { dbPath := "../swot.db", storeExists := true, tzOffsetMin := 180,
    swotRows := [emptyRow7], compRows := [emptyComp5],
    swotDir := [("notes.txt", "hand-written"), ("2011-09-09-99.mdx", "stale"),
      ("_category_.json.mdx", "protected")],
    compDir := [] }

/-! ## Theorems -/

theorem natToDecAux_eq_decDigits :
    ∀ fuel n acc, n ≤ fuel → natToDecAux fuel n acc = decDigits n ++ acc := by
  intro fuel
  induction fuel with
  | zero =>
    intro n acc hle
    have hn : n = 0 := Nat.le_zero.mp hle
    subst hn
    rw [natToDecAux, decDigits]
    simp
  | succ fuel ih =>
    intro n acc hle
    rw [natToDecAux]
    by_cases h : n < 10
    · rw [if_pos h, decDigits, if_pos h]
      simp
    · rw [if_neg h]
      have hdiv : n / 10 ≤ fuel := by
        have : n / 10 < n := Nat.div_lt_self (by omega) (by omega)
        omega
      rw [ih (n / 10) _ hdiv]
      conv_rhs => rw [decDigits]
      rw [if_neg h]
      simp

theorem natToDec_eq_decDigits (n : Nat) : natToDec n = decDigits n := by
  rw [natToDec, natToDecAux_eq_decDigits n n [] (Nat.le_refl n)]
  simp

theorem natToDec_eq (n : Nat) :
    natToDec n = if n < 10 then [Char.ofNat (48 + n % 10)]
      else natToDec (n / 10) ++ [Char.ofNat (48 + n % 10)] := by
  rw [natToDec_eq_decDigits, natToDec_eq_decDigits]
  conv_lhs => rw [decDigits]

theorem digit_char_toNat {m : Nat} (h : m < 10) :
    (Char.ofNat (48 + m)).toNat = 48 + m := by
  interval_cases m <;> decide

theorem digit_char_isDigit {m : Nat} (h : m < 10) :
    (Char.ofNat (48 + m)).isDigit = true := by
  interval_cases m <;> decide

theorem natToDec_ne_nil (n : Nat) : natToDec n ≠ [] := by
  rw [natToDec_eq]
  by_cases h : n < 10 <;> simp [h]

theorem natToDec_all_digit (n : Nat) :
    ∀ c ∈ natToDec n, c.isDigit = true := by
  induction n using Nat.strong_induction_on with
  | _ n ih =>
    rw [natToDec_eq]
    by_cases h : n < 10
    · simp only [h, if_true, List.mem_singleton]
      rintro c rfl
      exact digit_char_isDigit (Nat.mod_lt _ (by omega))
    · simp only [h, if_false, List.mem_append, List.mem_singleton]
      rintro c (hc | rfl)
      · exact ih (n / 10) (Nat.div_lt_self (by omega) (by omega)) c hc
      · exact digit_char_isDigit (Nat.mod_lt _ (by omega))

theorem digitsVal_append_singleton (l : List Char) (c : Char) :
    digitsVal (l ++ [c]) = 10 * digitsVal l + digitVal c := by
  simp [digitsVal, List.foldl_append]

theorem digitsVal_natToDec (n : Nat) : digitsVal (natToDec n) = n := by
  induction n using Nat.strong_induction_on with
  | _ n ih =>
    rw [natToDec_eq]
    by_cases h : n < 10
    · simp only [h, if_true]
      have : digitVal (Char.ofNat (48 + n % 10)) = n % 10 := by
        unfold digitVal
        rw [digit_char_toNat (Nat.mod_lt _ (by omega))]
        omega
      simp [digitsVal, this]
      omega
    · simp only [h, if_false]
      rw [digitsVal_append_singleton, ih (n / 10) (Nat.div_lt_self (by omega) (by omega))]
      have : digitVal (Char.ofNat (48 + n % 10)) = n % 10 := by
        unfold digitVal
        rw [digit_char_toNat (Nat.mod_lt _ (by omega))]
        omega
      rw [this]
      omega

theorem pad4_all_digit (n : Nat) : ∀ c ∈ pad4 n, c.isDigit = true := by
  intro c hc
  rw [pad4, List.mem_append] at hc
  rcases hc with hc | hc
  · rw [List.eq_of_mem_replicate hc]; decide
  · exact natToDec_all_digit n c hc

theorem pad4_head_digit (n : Nat) :
    ∃ c cs, pad4 n = c :: cs ∧ c.isDigit = true := by
  have hne : pad4 n ≠ [] := by
    rw [pad4]
    simp [natToDec_ne_nil n]
  rcases List.exists_cons_of_ne_nil hne with ⟨c, cs, hcs⟩
  exact ⟨c, cs, hcs, pad4_all_digit n c (by rw [hcs]; exact List.mem_cons_self _ _)⟩

theorem isoDateChars_head_digit (ms : Int) :
    ∃ c cs, isoDateChars ms = c :: cs ∧ c.isDigit = true := by
  rw [isoDateChars]
  rcases pad4_head_digit (civilFromDays (ms.ediv 86400000)).1.toNat with ⟨c, cs, hcs, hd⟩
  refine ⟨c, cs ++ '-' :: (pad2 (civilFromDays (ms.ediv 86400000)).2.1.toNat ++
    '-' :: pad2 (civilFromDays (ms.ediv 86400000)).2.2.toNat), ?_, hd⟩
  rw [hcs]
  simp

theorem take_length_takeWhile (p : Char → Bool) (t : List Char) :
    t.take (t.takeWhile p).length = t.takeWhile p := by
  induction t with
  | nil => simp
  | cons c cs ih =>
    rw [List.takeWhile_cons]
    by_cases hc : p c
    · simp [hc, ih]
    · simp [hc]

theorem takeWhile_digits_append_dot (d r : List Char)
    (hd : ∀ c ∈ d, c.isDigit = true) :
    List.takeWhile Char.isDigit (d ++ '.' :: r) = d := by
  induction d with
  | nil => simp [List.takeWhile_cons]
  | cons c cs ih =>
    rw [List.cons_append, List.takeWhile_cons]
    rw [hd c (List.mem_cons_self _ _)]
    simp only [if_true]
    rw [ih fun x hx => hd x (List.mem_cons_of_mem _ hx)]

theorem dash_not_mem_of_drop_takeWhile {t : List Char}
    (hdrop : t.drop (t.takeWhile Char.isDigit).length = ".mdx".data) :
    '-' ∉ t := by
  intro hmem
  have ht : t = t.takeWhile Char.isDigit ++ ".mdx".data := by
    conv_lhs => rw [← List.take_append_drop (t.takeWhile Char.isDigit).length t]
    rw [hdrop, take_length_takeWhile]
  rw [ht, List.mem_append] at hmem
  rcases hmem with hmem | hmem
  · have := List.mem_takeWhile_imp hmem
    simp at this
  · simp at hmem

theorem matchDashDigitsAt_dash_none {t : List Char}
    (hmem : '-' ∈ t) : matchDashDigitsAt ('-' :: t) = none := by
  have hfalse : ¬ (t.takeWhile Char.isDigit ≠ [] ∧
      t.drop (t.takeWhile Char.isDigit).length = ".mdx".data) := by
    rintro ⟨-, hdrop⟩
    exact dash_not_mem_of_drop_takeWhile hdrop hmem
  rw [matchDashDigitsAt, if_pos rfl, if_neg hfalse]

theorem matchDashDigitsAt_not_dash {c : Char} {t : List Char} (hc : c ≠ '-') :
    matchDashDigitsAt (c :: t) = none := by
  rw [matchDashDigitsAt]
  simp [hc]

/-- The leftmost match of `-(\d+)\.mdx$` on `p ++ "-" ++ d ++ ".mdx"` with
`d` a nonempty digit run captures exactly `d`: no dash inside `p` can match,
because the separating dash stands between it and the digits. -/
theorem firstDashDigits_append (p d : List Char) (hne : d ≠ [])
    (hd : ∀ c ∈ d, c.isDigit = true) :
    firstDashDigits (p ++ '-' :: (d ++ ".mdx".data)) = some d := by
  have hmdx : (".mdx".data : List Char) = '.' :: "mdx".data := by decide
  have htake : List.takeWhile Char.isDigit (d ++ ".mdx".data) = d := by
    rw [hmdx]; exact takeWhile_digits_append_dot d _ hd
  have hbase : matchDashDigitsAt ('-' :: (d ++ ".mdx".data)) = some d := by
    have hcond : (d ++ ".mdx".data).takeWhile Char.isDigit ≠ [] ∧
        (d ++ ".mdx".data).drop
          ((d ++ ".mdx".data).takeWhile Char.isDigit).length = ".mdx".data := by
      rw [htake]
      exact ⟨hne, List.drop_left d _⟩
    rw [matchDashDigitsAt, if_pos rfl, if_pos hcond, htake]
  induction p with
  | nil =>
    rw [List.nil_append, firstDashDigits, hbase]
  | cons c p ih =>
    rw [List.cons_append, firstDashDigits]
    by_cases hc : c = '-'
    · subst hc
      rw [matchDashDigitsAt_dash_none (by simp)]
      exact ih
    · rw [matchDashDigitsAt_not_dash hc]
      exact ih

/-- Any successful match of `-(\d+)\.mdx$` certifies that the file name
ends in ".mdx". -/
theorem firstDashDigits_some_suffix {cs d : List Char}
    (h : firstDashDigits cs = some d) : ∃ q, cs = q ++ ".mdx".data := by
  induction cs with
  | nil => simp [firstDashDigits] at h
  | cons c t ih =>
    rw [firstDashDigits] at h
    rcases hm : matchDashDigitsAt (c :: t) with _ | d'
    · rw [hm] at h
      rcases ih h with ⟨q, hq⟩
      exact ⟨c :: q, by rw [hq, List.cons_append]⟩
    · by_cases hc : c = '-'
      · subst hc
        rw [matchDashDigitsAt, if_pos rfl] at hm
        by_cases hcond : t.takeWhile Char.isDigit ≠ [] ∧
            t.drop (t.takeWhile Char.isDigit).length = ".mdx".data
        · refine ⟨'-' :: t.takeWhile Char.isDigit, ?_⟩
          rw [List.cons_append]
          congr 1
          conv_lhs => rw [← List.take_append_drop (t.takeWhile Char.isDigit).length t]
          rw [hcond.2, take_length_takeWhile]
        · rw [if_neg hcond] at hm
          exact absurd hm (by simp)
      · rw [matchDashDigitsAt_not_dash hc] at hm
        exact absurd hm (by simp)

theorem extractId_append_digits (p d : List Char) (hne : d ≠ [])
    (hd : ∀ c ∈ d, c.isDigit = true) :
    extractId ⟨p ++ '-' :: (d ++ ".mdx".data)⟩ = some (digitsVal d) := by
  show (firstDashDigits (p ++ '-' :: (d ++ ".mdx".data))).map digitsVal = _
  rw [firstDashDigits_append p d hne hd]
  rfl

theorem endsWithMdx_of_suffix {f : String} {q : List Char}
    (hq : f.data = q ++ ".mdx".data) : endsWithMdx f = true := by
  rw [endsWithMdx, hq]
  have h4 : (".mdx".data : List Char).length = 4 := by decide
  rw [List.length_append, h4]
  have hlen : q.length + 4 - 4 = q.length := by omega
  rw [hlen, List.drop_left]
  simp

theorem endsWithMdx_of_extract {f : String} {n : Nat}
    (h : extractId f = some n) : endsWithMdx f = true := by
  rw [extractId] at h
  rcases hm : firstDashDigits f.data with _ | d
  · rw [hm] at h; simp at h
  · rcases firstDashDigits_some_suffix hm with ⟨q, hq⟩
    exact endsWithMdx_of_suffix hq

/-- Characterization of deletion: `cleanupOldFiles` deletes a file name
(`keepFile = false`) exactly when the name matches `-(\d+)\.mdx$`, does not
start with an underscore, and the embedded identifier is not valid.  The
".mdx" suffix requirement of the directory pre-filter is subsumed by the
match itself. -/
theorem keepFile_false_iff (ids : List Nat) (f : String) :
    keepFile ids f = false ↔
      (startsWithUnderscore f = false ∧ ∃ n, extractId f = some n ∧ ¬ n ∈ ids) := by
  rw [keepFile]
  by_cases hus : startsWithUnderscore f = false
  · rcases hx : extractId f with _ | n
    · by_cases hmdx : endsWithMdx f = true
      · rw [if_pos ⟨hmdx, hus⟩]
        simp [hx]
      · rw [if_neg (by simp [hmdx])]
        simp [hx]
    · have hmdx : endsWithMdx f = true := endsWithMdx_of_extract hx
      rw [if_pos ⟨hmdx, hus⟩]
      simp [hus]
  · rw [if_neg (by simp [hus])]
    simp [hus]

/-! ## Lemmas about the directory operations -/
theorem lookupFile_writeFile_self (d : List (String × String)) (n c : String) :
    lookupFile (writeFile d n c) n = some c := by
  induction d with
  | nil => simp [writeFile, lookupFile]
  | cons e rest ih =>
    rw [writeFile]
    by_cases he : e.1 = n
    · rw [if_pos he, lookupFile, if_pos rfl]
    · rw [if_neg he, lookupFile, if_neg he]
      exact ih

theorem lookupFile_writeFile_ne (d : List (String × String)) {n m : String}
    (c : String) (hnm : m ≠ n) :
    lookupFile (writeFile d n c) m = lookupFile d m := by
  induction d with
  | nil => simp [writeFile, lookupFile, Ne.symm hnm]
  | cons e rest ih =>
    rw [writeFile]
    by_cases he : e.1 = n
    · rw [if_pos he, lookupFile, if_neg (Ne.symm hnm), lookupFile,
        if_neg (by rw [he]; exact Ne.symm hnm)]
    · rw [if_neg he, lookupFile, lookupFile]
      by_cases hem : e.1 = m
      · rw [if_pos hem, if_pos hem]
      · rw [if_neg hem, if_neg hem]
        exact ih

theorem writeFile_eq_of_lookup {d : List (String × String)} {n c : String}
    (h : lookupFile d n = some c) : writeFile d n c = d := by
  induction d with
  | nil => simp [lookupFile] at h
  | cons e rest ih =>
    rw [lookupFile] at h
    rw [writeFile]
    by_cases he : e.1 = n
    · rw [if_pos he]
      rw [if_pos he] at h
      cases h
      rw [← he]
    · rw [if_neg he]
      rw [if_neg he] at h
      rw [ih h]

theorem mem_dirNames_writeFile (d : List (String × String)) (n c m : String) :
    m ∈ dirNames (writeFile d n c) ↔ m = n ∨ m ∈ dirNames d := by
  induction d with
  | nil => simp [writeFile, dirNames]
  | cons e rest ih =>
    rw [writeFile]
    by_cases he : e.1 = n
    · rw [if_pos he]
      simp only [dirNames, List.map_cons, List.mem_cons]
      rw [he]
      tauto
    · rw [if_neg he]
      simp only [dirNames, List.map_cons, List.mem_cons] at *
      rw [ih]
      tauto

theorem mem_dirNames_filter (p : String → Bool) (d : List (String × String))
    (f : String) :
    f ∈ dirNames (d.filter fun e => p e.1) ↔ f ∈ dirNames d ∧ p f = true := by
  induction d with
  | nil => simp [dirNames]
  | cons e rest ih =>
    rw [List.filter_cons]
    by_cases he : p e.1 = true
    · rw [if_pos he]
      simp only [dirNames, List.map_cons, List.mem_cons] at *
      rw [ih]
      constructor
      · rintro (rfl | h)
        · exact ⟨Or.inl rfl, he⟩
        · exact ⟨Or.inr h.1, h.2⟩
      · rintro ⟨rfl | h, hp⟩
        · exact Or.inl rfl
        · exact Or.inr ⟨h, hp⟩
    · rw [if_neg he]
      simp only [dirNames, List.map_cons, List.mem_cons] at *
      rw [ih]
      constructor
      · rintro ⟨h, hp⟩
        exact ⟨Or.inr h, hp⟩
      · rintro ⟨rfl | h, hp⟩
        · exact absurd hp he
        · exact ⟨h, hp⟩

theorem lookupFile_filter (p : String → Bool) (d : List (String × String))
    {n : String} (hp : p n = true) :
    lookupFile (d.filter fun e => p e.1) n = lookupFile d n := by
  induction d with
  | nil => simp
  | cons e rest ih =>
    rw [List.filter_cons]
    by_cases he : p e.1 = true
    · rw [if_pos he, lookupFile, lookupFile]
      by_cases hen : e.1 = n
      · rw [if_pos hen, if_pos hen]
      · rw [if_neg hen, if_neg hen]
        exact ih
    · rw [if_neg he, lookupFile]
      by_cases hen : e.1 = n
      · exact absurd (hen ▸ hp) he
      · rw [if_neg hen]
        exact ih

/-! ## Lemmas about the emit loop -/
theorem runEmit_none_names {α : Type} (render : Nat → α → Except String Rendered)
    (fname : α → String)
    (hfn : ∀ i r out, render i r = .ok out → out.fileName = fname r) :
    ∀ (rows : List α) (i : Nat) (dir d' : List (String × String)),
      runEmit render i rows dir = (d', none) →
      ∀ f, f ∈ dirNames d' ↔ f ∈ rows.map fname ∨ f ∈ dirNames dir := by
  intro rows
  induction rows with
  | nil =>
    intro i dir d' h f
    rw [runEmit] at h
    cases h
    simp
  | cons r rs ih =>
    intro i dir d' h f
    rw [runEmit] at h
    rcases hr : render i r with e | out
    · rw [hr] at h
      cases h
    · rw [hr] at h
      rw [ih (i + 1) _ d' h f, List.map_cons, List.mem_cons,
        mem_dirNames_writeFile, hfn i r out hr]
      tauto

theorem runEmit_none_ok {α : Type} (render : Nat → α → Except String Rendered) :
    ∀ (rows : List α) (i : Nat) (dir d' : List (String × String)),
      runEmit render i rows dir = (d', none) →
      ∀ j r, rows[j]? = some r → ∃ out, render (i + j) r = .ok out := by
  intro rows
  induction rows with
  | nil =>
    intro i dir d' _ j r hj
    simp at hj
  | cons r0 rs ih =>
    intro i dir d' h j r hj
    rw [runEmit] at h
    rcases hr : render i r0 with e | out
    · rw [hr] at h
      cases h
    · rw [hr] at h
      cases j with
      | zero =>
        simp at hj
        subst hj
        exact ⟨out, by simpa using hr⟩
      | succ j =>
        simp only [List.getElem?_cons_succ] at hj
        have := ih (i + 1) _ d' h j r hj
        simpa [Nat.add_assoc, Nat.add_comm 1 j] using this

theorem runEmit_lookup_not_mem {α : Type}
    (render : Nat → α → Except String Rendered) (fname : α → String)
    (hfn : ∀ i r out, render i r = .ok out → out.fileName = fname r) :
    ∀ (rows : List α) (i : Nat) (dir d' : List (String × String)),
      runEmit render i rows dir = (d', none) →
      ∀ n, n ∉ rows.map fname → lookupFile d' n = lookupFile dir n := by
  intro rows
  induction rows with
  | nil =>
    intro i dir d' h n _
    rw [runEmit] at h
    cases h
    rfl
  | cons r rs ih =>
    intro i dir d' h n hn
    rw [runEmit] at h
    rcases hr : render i r with e | out
    · rw [hr] at h
      cases h
    · rw [hr] at h
      simp only [List.map_cons, List.mem_cons, not_or] at hn
      rw [ih (i + 1) _ d' h n hn.2,
        lookupFile_writeFile_ne _ _ (by rw [hfn i r out hr]; exact hn.1)]

theorem runEmit_none_lookup {α : Type}
    (render : Nat → α → Except String Rendered) (fname : α → String)
    (hfn : ∀ i r out, render i r = .ok out → out.fileName = fname r) :
    ∀ (rows : List α) (i : Nat) (dir d' : List (String × String)),
      runEmit render i rows dir = (d', none) →
      (rows.map fname).Nodup →
      ∀ j r out, rows[j]? = some r → render (i + j) r = .ok out →
        lookupFile d' (fname r) = some out.content := by
  intro rows
  induction rows with
  | nil =>
    intro i dir d' _ _ j r _ hj
    simp at hj
  | cons r0 rs ih =>
    intro i dir d' h hnd j r out hj hout
    rw [runEmit] at h
    rcases hr : render i r0 with e | out0
    · rw [hr] at h
      cases h
    · rw [hr] at h
      cases j with
      | zero =>
        simp at hj
        subst hj
        have hoo : out0 = out := by
          rw [show i + 0 = i by omega] at hout
          rw [hr] at hout
          cases hout
          rfl
        subst hoo
        rw [List.map_cons, List.nodup_cons] at hnd
        rw [runEmit_lookup_not_mem render fname hfn rs (i + 1) _ d' h
          (fname r0) hnd.1, ← hfn i r0 out0 hr]
        exact lookupFile_writeFile_self dir _ _
      | succ j =>
        simp only [List.getElem?_cons_succ] at hj
        rw [List.map_cons, List.nodup_cons] at hnd
        have := ih (i + 1) _ d' h hnd.2 j r out hj
          (by rw [show i + 1 + j = i + (j + 1) by omega]; exact hout)
        exact this

theorem runEmit_stable {α : Type}
    (render : Nat → α → Except String Rendered) (fname : α → String)
    (hfn : ∀ i r out, render i r = .ok out → out.fileName = fname r) :
    ∀ (rows : List α) (i : Nat) (dir : List (String × String)),
      (∀ j r, rows[j]? = some r →
        ∃ out, render (i + j) r = .ok out ∧
          lookupFile dir (fname r) = some out.content) →
      runEmit render i rows dir = (dir, none) := by
  intro rows
  induction rows with
  | nil =>
    intro i dir _
    rw [runEmit]
  | cons r0 rs ih =>
    intro i dir hall
    rcases hall 0 r0 (by simp) with ⟨out, hout, hlk⟩
    rw [show i + 0 = i by omega] at hout
    rw [runEmit, hout]
    have hw : writeFile dir out.fileName out.content = dir :=
      writeFile_eq_of_lookup (by rw [hfn i r0 out hout]; exact hlk)
    show runEmit render (i + 1) rs (writeFile dir out.fileName out.content) = (dir, none)
    rw [hw]
    apply ih (i + 1) dir
    intro j r hj
    rcases hall (j + 1) r (by simpa using hj) with ⟨out', hout', hlk'⟩
    exact ⟨out', by rw [show i + 1 + j = i + (j + 1) by omega]; exact hout', hlk'⟩

/-! ## Lemmas about the transforms -/
theorem renderSwot_ok_shape {tz : Int} {i : Nat} {row : SwotRow} {out : Rendered}
    (h : renderSwot tz i row = .ok out) :
    out.slug = slugOf row.created_at row.id ∧
    out.fileName = swotFileName row ∧
    out.isLatest = (i == 0) ∧
    out.weight = sidebarPosition row.id := by
  rw [renderSwot] at h
  rcases hb : buildSwotContent tz i row with e | c
  · rw [hb] at h
    cases h
  · rw [hb] at h
    cases h
    exact ⟨rfl, rfl, rfl, rfl⟩

theorem renderComp_ok_shape {tz : Int} {i : Nat} {row : CompRow} {out : Rendered}
    (h : renderComp tz i row = .ok out) :
    out.slug = slugOf row.created_at row.id ∧
    out.fileName = compFileName row ∧
    out.isLatest = (i == 0) ∧
    out.weight = sidebarPosition row.id := by
  rw [renderComp] at h
  rcases hb : buildCompContent tz i row with e | c
  · rw [hb] at h
    cases h
  · rw [hb] at h
    cases h
    exact ⟨rfl, rfl, rfl, rfl⟩

theorem swotFileName_data (ms : Int) (id : Nat) :
    (slugOf ms id ++ ".mdx").data =
      isoDateChars ms ++ '-' :: (natToDec id ++ ".mdx".data) := by
  show (isoDate ms ++ "-" ++ natToDecStr id ++ ".mdx").data = _
  rw [String.data_append, String.data_append, String.data_append]
  show isoDateChars ms ++ ['-'] ++ natToDec id ++ ".mdx".data = _
  simp

/-- The embedded identifier that the reconciler reads back out of an
emitted file name is exactly the row identifier. -/
theorem extractId_slugFile (ms : Int) (id : Nat) :
    extractId (slugOf ms id ++ ".mdx") = some id := by
  have hdata : (slugOf ms id ++ ".mdx").data =
      isoDateChars ms ++ '-' :: (natToDec id ++ ".mdx".data) :=
    swotFileName_data ms id
  show (firstDashDigits (slugOf ms id ++ ".mdx").data).map digitsVal = some id
  rw [hdata, firstDashDigits_append (isoDateChars ms) (natToDec id)
    (natToDec_ne_nil id) (natToDec_all_digit id)]
  show some (digitsVal (natToDec id)) = some id
  rw [digitsVal_natToDec]

theorem startsWithUnderscore_slugFile (ms : Int) (id : Nat) :
    startsWithUnderscore (slugOf ms id ++ ".mdx") = false := by
  rcases isoDateChars_head_digit ms with ⟨c, cs, hcs, hdig⟩
  have hdata : (slugOf ms id ++ ".mdx").data =
      c :: (cs ++ '-' :: (natToDec id ++ ".mdx".data)) := by
    rw [swotFileName_data ms id, hcs]
    simp
  rw [startsWithUnderscore, hdata]
  have : c ≠ '_' := by
    intro hc
    rw [hc] at hdig
    simp at hdig
  simp [this]

/-- An emitted file name always survives its own kind's reconciliation. -/
theorem keepFile_slugFile {ids : List Nat} (ms : Int) {id : Nat}
    (hmem : id ∈ ids) : keepFile ids (slugOf ms id ++ ".mdx") = true := by
  rw [keepFile, if_pos ⟨endsWithMdx_of_extract (extractId_slugFile ms id),
    startsWithUnderscore_slugFile ms id⟩, extractId_slugFile ms id]
  simpa using hmem

theorem nodup_map_swotFileName {rows : List SwotRow}
    (h : (rows.map fun r => r.id).Nodup) : (rows.map swotFileName).Nodup := by
  have hmap : (rows.map swotFileName).map extractId =
      rows.map fun r => some r.id := by
    rw [List.map_map]
    apply List.map_congr_left
    intro r _
    exact extractId_slugFile r.created_at r.id
  apply List.Nodup.of_map extractId
  rw [hmap]
  have : (rows.map fun r => some r.id) = (rows.map fun r => r.id).map some := by
    rw [List.map_map]
    rfl
  rw [this]
  exact h.map (Option.some_injective Nat)

theorem nodup_map_compFileName {rows : List CompRow}
    (h : (rows.map fun r => r.id).Nodup) : (rows.map compFileName).Nodup := by
  have hmap : (rows.map compFileName).map extractId =
      rows.map fun r => some r.id := by
    rw [List.map_map]
    apply List.map_congr_left
    intro r _
    exact extractId_slugFile r.created_at r.id
  apply List.Nodup.of_map extractId
  rw [hmap]
  have : (rows.map fun r => some r.id) = (rows.map fun r => r.id).map some := by
    rw [List.map_map]
    rfl
  rw [this]
  exact h.map (Option.some_injective Nat)

/-! ## Closed forms of the driver, one per control path -/
theorem runPipeline_eq_of_emits (t : Int) (w : World) (hs : w.storeExists = true)
    {d1 d2 : List (String × String)}
    (h1 : runSwotEmit w.tzOffsetMin 0 w.swotRows w.swotDir = (d1, none))
    (h2 : runCompEmit w.tzOffsetMin 0 w.compRows w.compDir = (d2, none)) :
    runPipeline t w =
      { exitCode := 0, connectionOpened := true,
        swotDir := d1.filter fun e => keepFile (w.swotRows.map fun r => r.id) e.1,
        compDir := d2.filter fun e => keepFile (w.compRows.map fun r => r.id) e.1,
        removedSwot := d1.length -
          (d1.filter fun e => keepFile (w.swotRows.map fun r => r.id) e.1).length,
        removedComp := d2.length -
          (d2.filter fun e => keepFile (w.compRows.map fun r => r.id) e.1).length,
        fatal := none, errLog := [] } := by
  rw [runPipeline, if_pos hs]
  rw [show runSwotEmit w.tzOffsetMin 0 w.swotRows w.swotDir = (d1, none) from h1]
  rw [show runCompEmit w.tzOffsetMin 0 w.compRows w.compDir = (d2, none) from h2]
  rfl

theorem runPipeline_eq_of_swotFail (t : Int) (w : World)
    (hs : w.storeExists = true) {d1 : List (String × String)} {msg : String}
    (h1 : runSwotEmit w.tzOffsetMin 0 w.swotRows w.swotDir = (d1, some msg)) :
    runPipeline t w =
      { exitCode := 1, connectionOpened := true, swotDir := d1,
        compDir := w.compDir, removedSwot := 0, removedComp := 0,
        fatal := some msg, errLog := [] } := by
  rw [runPipeline, if_pos hs]
  rw [show runSwotEmit w.tzOffsetMin 0 w.swotRows w.swotDir = (d1, some msg) from h1]

theorem runPipeline_eq_of_compFail (t : Int) (w : World)
    (hs : w.storeExists = true) {d1 d2 : List (String × String)} {msg : String}
    (h1 : runSwotEmit w.tzOffsetMin 0 w.swotRows w.swotDir = (d1, none))
    (h2 : runCompEmit w.tzOffsetMin 0 w.compRows w.compDir = (d2, some msg)) :
    runPipeline t w =
      { exitCode := 1, connectionOpened := true,
        swotDir := d1.filter fun e => keepFile (w.swotRows.map fun r => r.id) e.1,
        compDir := d2,
        removedSwot := d1.length -
          (d1.filter fun e => keepFile (w.swotRows.map fun r => r.id) e.1).length,
        removedComp := 0, fatal := some msg, errLog := [] } := by
  rw [runPipeline, if_pos hs]
  rw [show runSwotEmit w.tzOffsetMin 0 w.swotRows w.swotDir = (d1, none) from h1]
  rw [show runCompEmit w.tzOffsetMin 0 w.compRows w.compDir = (d2, some msg) from h2]
  rfl

/-- A run that did not abort ran both emit loops to completion and
reconciled both directories. -/
theorem runPipeline_ok_parts (t : Int) (w : World) (hs : w.storeExists = true)
    (hok : (runPipeline t w).fatal = none) :
    ∃ d1 d2,
      runSwotEmit w.tzOffsetMin 0 w.swotRows w.swotDir = (d1, none) ∧
      runCompEmit w.tzOffsetMin 0 w.compRows w.compDir = (d2, none) ∧
      (runPipeline t w).swotDir =
        d1.filter (fun e => keepFile (w.swotRows.map fun r => r.id) e.1) ∧
      (runPipeline t w).compDir =
        d2.filter (fun e => keepFile (w.compRows.map fun r => r.id) e.1) ∧
      (runPipeline t w).exitCode = 0 := by
  rcases h1 : runSwotEmit w.tzOffsetMin 0 w.swotRows w.swotDir with ⟨d1, e1⟩
  cases e1 with
  | some msg =>
    rw [runPipeline_eq_of_swotFail t w hs h1] at hok
    simp at hok
  | none =>
    rcases h2 : runCompEmit w.tzOffsetMin 0 w.compRows w.compDir with ⟨d2, e2⟩
    cases e2 with
    | some msg =>
      rw [runPipeline_eq_of_compFail t w hs h1 h2] at hok
      simp at hok
    | none =>
      refine ⟨d1, d2, rfl, rfl, ?_, ?_, ?_⟩ <;>
        rw [runPipeline_eq_of_emits t w hs h1 h2]

theorem parseFieldE_ok_isSome {f : Option String} {j : Json}
    (h : parseFieldE f = .ok j) : (parseStructured f).isSome = true := by
  rw [parseFieldE] at h
  rcases hp : parseStructured f with _ | j'
  · rw [hp] at h
    cases h
  · simp

theorem parseFieldE_none_or_empty {f : Option String}
    (h : f = none ∨ f = some "") : parseFieldE f = .ok (Json.arr []) := by
  rcases h with rfl | rfl <;> rfl

theorem buildSwot_ok_parses {tz : Int} {i : Nat} {row : SwotRow} {c : String}
    (h : buildSwotContent tz i row = .ok c) : structuredParsesSwot row := by
  rw [buildSwotContent] at h
  rcases hp1 : parseFieldE row.strengths_json with e | j1
  · rw [hp1] at h
    exact Except.noConfusion h
  rw [hp1] at h
  rcases hp2 : parseFieldE row.weaknesses_json with e | j2
  · rw [hp2] at h
    exact Except.noConfusion h
  rw [hp2] at h
  rcases hp3 : parseFieldE row.opportunities_json with e | j3
  · rw [hp3] at h
    exact Except.noConfusion h
  rw [hp3] at h
  rcases hp4 : parseFieldE row.threats_json with e | j4
  · rw [hp4] at h
    exact Except.noConfusion h
  rw [hp4] at h
  rcases hp5 : parseFieldE row.strategic_so_json with e | j5
  · rw [hp5] at h
    exact Except.noConfusion h
  rw [hp5] at h
  rcases hp6 : parseFieldE row.strategic_wo_json with e | j6
  · rw [hp6] at h
    exact Except.noConfusion h
  rw [hp6] at h
  rcases hp7 : parseFieldE row.strategic_st_json with e | j7
  · rw [hp7] at h
    exact Except.noConfusion h
  rw [hp7] at h
  rcases hp8 : parseFieldE row.strategic_wt_json with e | j8
  · rw [hp8] at h
    exact Except.noConfusion h
  exact ⟨parseFieldE_ok_isSome hp1, parseFieldE_ok_isSome hp2,
    parseFieldE_ok_isSome hp3, parseFieldE_ok_isSome hp4,
    parseFieldE_ok_isSome hp5, parseFieldE_ok_isSome hp6,
    parseFieldE_ok_isSome hp7, parseFieldE_ok_isSome hp8⟩

theorem buildComp_ok_parses {tz : Int} {i : Nat} {row : CompRow} {c : String}
    (h : buildCompContent tz i row = .ok c) :
    (parseStructured row.items_json).isSome = true := by
  rw [buildCompContent] at h
  rcases hp : parseFieldE row.items_json with e | j
  · rw [hp] at h
    exact Except.noConfusion h
  · exact parseFieldE_ok_isSome hp

theorem renderSwot_ok_build {tz : Int} {i : Nat} {row : SwotRow} {out : Rendered}
    (h : renderSwot tz i row = .ok out) :
    ∃ c, buildSwotContent tz i row = .ok c := by
  rw [renderSwot] at h
  rcases hb : buildSwotContent tz i row with e | c
  · rw [hb] at h
    cases h
  · exact ⟨c, rfl⟩

theorem renderComp_ok_build {tz : Int} {i : Nat} {row : CompRow} {out : Rendered}
    (h : renderComp tz i row = .ok out) :
    ∃ c, buildCompContent tz i row = .ok c := by
  rw [renderComp] at h
  rcases hb : buildCompContent tz i row with e | c
  · rw [hb] at h
    cases h
  · exact ⟨c, rfl⟩

theorem renderSwot_ok_of_missing (tz : Int) (i : Nat) (row : SwotRow)
    (h : allStructuredMissing row) : ∃ out, renderSwot tz i row = .ok out := by
  obtain ⟨h1, h2, h3, h4, h5, h6, h7, h8⟩ := h
  have e1 := parseFieldE_none_or_empty h1
  have e2 := parseFieldE_none_or_empty h2
  have e3 := parseFieldE_none_or_empty h3
  have e4 := parseFieldE_none_or_empty h4
  have e5 := parseFieldE_none_or_empty h5
  have e6 := parseFieldE_none_or_empty h6
  have e7 := parseFieldE_none_or_empty h7
  have e8 := parseFieldE_none_or_empty h8
  have hb : ∃ c, buildSwotContent tz i row = .ok c := by
    rw [buildSwotContent, e1, e2, e3, e4, e5, e6, e7, e8]
    exact ⟨_, rfl⟩
  rcases hb with ⟨c, hc⟩
  refine ⟨{ slug := slugOf row.created_at row.id
            fileName := slugOf row.created_at row.id ++ ".mdx"
            isLatest := i == 0
            weight := sidebarPosition row.id
            content := c }, ?_⟩
  rw [renderSwot, hc]

theorem filter_idem {α : Type} (p : α → Bool) (l : List α) :
    (l.filter p).filter p = l.filter p := by
  induction l with
  | nil => rfl
  | cons a t ih =>
    rw [List.filter_cons]
    by_cases hp : p a = true
    · rw [if_pos hp, List.filter_cons, if_pos hp, ih]
    · rw [if_neg hp, ih]

theorem runPipeline_eq_of_missing (t : Int) (w : World)
    (hs : w.storeExists = false) :
    runPipeline t w =
      { exitCode := 1, connectionOpened := false, swotDir := w.swotDir,
        compDir := w.compDir, removedSwot := 0, removedComp := 0,
        fatal := none,
        errLog := ["❌ База данных не найдена: " ++ w.dbPath,
          "💡 Укажите путь: node generate-docs.js --db /path/to/swot.db"] } := by
  rw [runPipeline, if_neg (by rw [hs]; simp)]

/-- After a completed run, the name set of each output directory is the
emitted slug names plus exactly the pre-existing names the reconciler
keeps. -/
theorem runPipeline_names (t : Int) (w : World) (hs : w.storeExists = true)
    (hok : (runPipeline t w).fatal = none) :
    (∀ f, f ∈ dirNames (runPipeline t w).swotDir ↔
        f ∈ w.swotRows.map swotFileName ∨
          (f ∈ dirNames w.swotDir ∧
            keepFile (w.swotRows.map fun r => r.id) f = true)) ∧
    (∀ f, f ∈ dirNames (runPipeline t w).compDir ↔
        f ∈ w.compRows.map compFileName ∨
          (f ∈ dirNames w.compDir ∧
            keepFile (w.compRows.map fun r => r.id) f = true)) := by
  obtain ⟨d1, d2, he1, he2, hsw, hcp, -⟩ := runPipeline_ok_parts t w hs hok
  have hfnS : ∀ i r out, renderSwot w.tzOffsetMin i r = .ok out →
      out.fileName = swotFileName r := fun i r out h => (renderSwot_ok_shape h).2.1
  have hfnC : ∀ i r out, renderComp w.tzOffsetMin i r = .ok out →
      out.fileName = compFileName r := fun i r out h => (renderComp_ok_shape h).2.1
  constructor
  · intro f
    rw [hsw, mem_dirNames_filter,
      runEmit_none_names (renderSwot w.tzOffsetMin) swotFileName hfnS
        w.swotRows 0 w.swotDir d1 he1 f]
    constructor
    · rintro ⟨hem | hbf, hk⟩
      · exact Or.inl hem
      · exact Or.inr ⟨hbf, hk⟩
    · rintro (hem | ⟨hbf, hk⟩)
      · refine ⟨Or.inl hem, ?_⟩
        rcases List.mem_map.mp hem with ⟨r, hr, rfl⟩
        exact keepFile_slugFile r.created_at
          (List.mem_map_of_mem (fun r => r.id) hr)
      · exact ⟨Or.inr hbf, hk⟩
  · intro f
    rw [hcp, mem_dirNames_filter,
      runEmit_none_names (renderComp w.tzOffsetMin) compFileName hfnC
        w.compRows 0 w.compDir d2 he2 f]
    constructor
    · rintro ⟨hem | hbf, hk⟩
      · exact Or.inl hem
      · exact Or.inr ⟨hbf, hk⟩
    · rintro (hem | ⟨hbf, hk⟩)
      · refine ⟨Or.inl hem, ?_⟩
        rcases List.mem_map.mp hem with ⟨r, hr, rfl⟩
        exact keepFile_slugFile r.created_at
          (List.mem_map_of_mem (fun r => r.id) hr)
      · exact ⟨Or.inr hbf, hk⟩

/-- Re-running the pipeline on its own output changes nothing: every file is
rewritten with identical content and the reconciler deletes nothing. -/
theorem runPipeline_idem (t t' : Int) (w : World)
    (hnd1 : (w.swotRows.map fun r => r.id).Nodup)
    (hnd2 : (w.compRows.map fun r => r.id).Nodup)
    (hok : (runPipeline t w).fatal = none) :
    (runPipeline t' { w with swotDir := (runPipeline t w).swotDir,
                             compDir := (runPipeline t w).compDir }).swotDir
        = (runPipeline t w).swotDir ∧
    (runPipeline t' { w with swotDir := (runPipeline t w).swotDir,
                             compDir := (runPipeline t w).compDir }).compDir
        = (runPipeline t w).compDir ∧
    (runPipeline t' { w with swotDir := (runPipeline t w).swotDir,
                             compDir := (runPipeline t w).compDir }).fatal
        = none := by
  by_cases hs : w.storeExists = true
  · obtain ⟨d1, d2, he1, he2, hsw, hcp, -⟩ := runPipeline_ok_parts t w hs hok
    have hfnS : ∀ i r out, renderSwot w.tzOffsetMin i r = .ok out →
        out.fileName = swotFileName r := fun i r out h => (renderSwot_ok_shape h).2.1
    have hfnC : ∀ i r out, renderComp w.tzOffsetMin i r = .ok out →
        out.fileName = compFileName r := fun i r out h => (renderComp_ok_shape h).2.1
    have hndS := nodup_map_swotFileName hnd1
    have hndC := nodup_map_compFileName hnd2
    have hstableS : runEmit (renderSwot w.tzOffsetMin) 0 w.swotRows
        (d1.filter fun e => keepFile (w.swotRows.map fun r => r.id) e.1) =
        (d1.filter fun e => keepFile (w.swotRows.map fun r => r.id) e.1, none) := by
      apply runEmit_stable _ swotFileName hfnS
      intro j r hj
      obtain ⟨out, hout⟩ := runEmit_none_ok (renderSwot w.tzOffsetMin)
        w.swotRows 0 w.swotDir d1 he1 j r hj
      refine ⟨out, hout, ?_⟩
      have hlk1 : lookupFile d1 (swotFileName r) = some out.content :=
        runEmit_none_lookup _ swotFileName hfnS w.swotRows 0 w.swotDir d1
          he1 hndS j r out hj hout
      have hkeep : keepFile (w.swotRows.map fun r => r.id) (swotFileName r) = true :=
        keepFile_slugFile r.created_at
          (List.mem_map_of_mem (fun r => r.id) (List.getElem?_mem hj))
      rw [lookupFile_filter _ d1 hkeep]
      exact hlk1
    have hstableC : runEmit (renderComp w.tzOffsetMin) 0 w.compRows
        (d2.filter fun e => keepFile (w.compRows.map fun r => r.id) e.1) =
        (d2.filter fun e => keepFile (w.compRows.map fun r => r.id) e.1, none) := by
      apply runEmit_stable _ compFileName hfnC
      intro j r hj
      obtain ⟨out, hout⟩ := runEmit_none_ok (renderComp w.tzOffsetMin)
        w.compRows 0 w.compDir d2 he2 j r hj
      refine ⟨out, hout, ?_⟩
      have hlk1 : lookupFile d2 (compFileName r) = some out.content :=
        runEmit_none_lookup _ compFileName hfnC w.compRows 0 w.compDir d2
          he2 hndC j r out hj hout
      have hkeep : keepFile (w.compRows.map fun r => r.id) (compFileName r) = true :=
        keepFile_slugFile r.created_at
          (List.mem_map_of_mem (fun r => r.id) (List.getElem?_mem hj))
      rw [lookupFile_filter _ d2 hkeep]
      exact hlk1
    have hstableS' : runSwotEmit w.tzOffsetMin 0 w.swotRows
        (runPipeline t w).swotDir = ((runPipeline t w).swotDir, none) := by
      rw [hsw]
      exact hstableS
    have hstableC' : runCompEmit w.tzOffsetMin 0 w.compRows
        (runPipeline t w).compDir = ((runPipeline t w).compDir, none) := by
      rw [hcp]
      exact hstableC
    have hrun2 := runPipeline_eq_of_emits t'
      { w with swotDir := (runPipeline t w).swotDir,
               compDir := (runPipeline t w).compDir } hs
      hstableS' hstableC'
    have hg1 : (runPipeline t'
        { w with swotDir := (runPipeline t w).swotDir,
                 compDir := (runPipeline t w).compDir }).swotDir =
        ((runPipeline t w).swotDir).filter
          (fun e => keepFile (w.swotRows.map fun r => r.id) e.1) := by
      rw [hrun2]
    have hg2 : (runPipeline t'
        { w with swotDir := (runPipeline t w).swotDir,
                 compDir := (runPipeline t w).compDir }).compDir =
        ((runPipeline t w).compDir).filter
          (fun e => keepFile (w.compRows.map fun r => r.id) e.1) := by
      rw [hrun2]
    have hg3 : (runPipeline t'
        { w with swotDir := (runPipeline t w).swotDir,
                 compDir := (runPipeline t w).compDir }).fatal = none := by
      rw [hrun2]
    refine ⟨?_, ?_, hg3⟩
    · rw [hg1, hsw]
      exact filter_idem _ _
    · rw [hg2, hcp]
      exact filter_idem _ _
  · have hs' : w.storeExists = false := by
      cases hb : w.storeExists
      · rfl
      · exact absurd hb hs
    have hr1 := runPipeline_eq_of_missing t w hs'
    have hr2 := runPipeline_eq_of_missing t'
      { w with swotDir := (runPipeline t w).swotDir,
               compDir := (runPipeline t w).compDir } hs'
    rw [hr2]
    exact ⟨rfl, rfl, rfl⟩

/-! ## Lemmas about the proxy -/
theorem splitOnByte_not_mem (sep : Nat) (l : List Nat) :
    ∀ p ∈ splitOnByte sep l, sep ∉ p := by
  induction l with
  | nil =>
    intro p hp
    rw [splitOnByte] at hp
    simp at hp
    subst hp
    simp
  | cons b rest ih =>
    intro p hp
    rw [splitOnByte] at hp
    rcases hsp : splitOnByte sep rest with _ | ⟨q, qs⟩
    · rw [hsp] at hp
      simp at hp
      subst hp
      simp
    · rw [hsp] at hp
      change p ∈ (if b = sep then [] :: q :: qs else (b :: q) :: qs) at hp
      by_cases hb : b = sep
      · rw [if_pos hb] at hp
        rcases List.mem_cons.mp hp with rfl | hp2
        · simp
        · exact ih p (by rw [hsp]; exact hp2)
      · rw [if_neg hb] at hp
        rcases List.mem_cons.mp hp with rfl | hp2
        · intro hmem
          rcases List.mem_cons.mp hmem with rfl | hmem2
          · exact hb rfl
          · exact ih q (by rw [hsp]; exact List.mem_cons_self q qs) hmem2
        · exact ih p (by rw [hsp]; exact List.mem_cons_of_mem q hp2)

/-- With a colon inside the configured password, the credential comparison
can never succeed: the fields of a colon split contain no colon. -/
theorem authDecision_false_of_colon {userBytes passBytes : List Nat}
    (hcolon : 58 ∈ passBytes) (s : String) :
    authDecision userBytes passBytes s = false := by
  rw [authDecision]
  apply decide_eq_false
  rintro ⟨-, h2⟩
  exact splitOnByte_not_mem 58 (b64decode (s.drop 6)) passBytes
    (List.getElem?_mem h2) hcolon

/-- C3: the ordering weight written into the front matter is the fixed
constant 1000 minus the record identifier, hence strictly decreasing in the
identifier, for both analysis and comparison records. -/
theorem claim_C3 :
    (∀ id : Nat, sidebarPosition id = 1000 - (id : Int)) ∧
    (∀ i j : Nat, i < j → sidebarPosition j < sidebarPosition i) ∧
    (∀ (tz : Int) (k : Nat) (row : SwotRow) (out : Rendered),
      renderSwot tz k row = .ok out → out.weight = sidebarPosition row.id) ∧
    (∀ (tz : Int) (k : Nat) (row : CompRow) (out : Rendered),
      renderComp tz k row = .ok out → out.weight = sidebarPosition row.id) := by
  refine ⟨fun _ => rfl, ?_, ?_, ?_⟩
  · intro i j hij
    rw [sidebarPosition, sidebarPosition]
    omega
  · intro tz k row out h
    exact (renderSwot_ok_shape h).2.2.2
  · intro tz k row out h
    exact (renderComp_ok_shape h).2.2.2

/-- Witness for C3: instantiated at identifiers 1 < 2 and at the concrete
rendered documents of `emptyRow7` and `emptyComp5`. -/
theorem claim_C3_witness :
    sidebarPosition 2 < sidebarPosition 1 ∧
    emptyRow7Out.weight = sidebarPosition 7 ∧
    emptyComp5Out.weight = sidebarPosition 5 :=
  ⟨claim_C3.2.1 1 2 (by decide),
   claim_C3.2.2.1 0 0 emptyRow7 emptyRow7Out rfl,
   claim_C3.2.2.2 0 0 emptyComp5 emptyComp5Out rfl⟩

/-- C4: a record of either kind is flagged "latest" exactly when its rank in
the creation-time-descending listing is 0. -/
theorem claim_C4 :
    (∀ (tz : Int) (i : Nat) (row : SwotRow) (out : Rendered),
      renderSwot tz i row = .ok out → (out.isLatest = true ↔ i = 0)) ∧
    (∀ (tz : Int) (i : Nat) (row : CompRow) (out : Rendered),
      renderComp tz i row = .ok out → (out.isLatest = true ↔ i = 0)) := by
  constructor
  · intro tz i row out h
    rw [(renderSwot_ok_shape h).2.2.1]
    simp
  · intro tz i row out h
    rw [(renderComp_ok_shape h).2.2.1]
    simp

/-- Witness for C4: the concrete rendered documents at ranks 0 and 1. -/
theorem claim_C4_witness :
    (emptyRow7Out.isLatest = true ↔ 0 = 0) ∧
    (emptyRow7Out1.isLatest = true ↔ 1 = 0) ∧
    (emptyComp5Out.isLatest = true ↔ 0 = 0) :=
  ⟨claim_C4.1 0 0 emptyRow7 emptyRow7Out rfl,
   claim_C4.1 0 1 emptyRow7 emptyRow7Out1 rfl,
   claim_C4.2 0 0 emptyComp5 emptyComp5Out rfl⟩

/-- C5: the slug of every rendered analysis record is the ISO date of its
creation timestamp, a dash, and its identifier; it does not depend on the
rank in the listing or on the host time zone, so the same record always maps
to the same filename stem. -/
theorem claim_C5 :
    (∀ (tz : Int) (i : Nat) (row : SwotRow) (out : Rendered),
      renderSwot tz i row = .ok out →
        out.slug = isoDate row.created_at ++ "-" ++ natToDecStr row.id ∧
        out.fileName = out.slug ++ ".mdx") ∧
    (∀ (tz tz' : Int) (i i' : Nat) (row : SwotRow) (out out' : Rendered),
      renderSwot tz i row = .ok out → renderSwot tz' i' row = .ok out' →
        out.slug = out'.slug) := by
  constructor
  · intro tz i row out h
    have hs := (renderSwot_ok_shape h).1
    have hf := (renderSwot_ok_shape h).2.1
    exact ⟨hs, by rw [hf, hs]; rfl⟩
  · intro tz tz' i i' row out out' h h'
    rw [(renderSwot_ok_shape h).1, (renderSwot_ok_shape h').1]

/-- Witness for C5: the concrete rendered document of `emptyRow7`, whose
slug is "2024-03-01-7". -/
theorem claim_C5_witness :
    (emptyRow7Out.slug = isoDate 1709287200000 ++ "-" ++ natToDecStr 7 ∧
      emptyRow7Out.fileName = emptyRow7Out.slug ++ ".mdx") ∧
    emptyRow7Out.slug = emptyRow7Out1.slug :=
  ⟨claim_C5.1 0 0 emptyRow7 emptyRow7Out rfl,
   claim_C5.2 0 0 0 1 emptyRow7 emptyRow7Out emptyRow7Out1 rfl rfl⟩

/-- C6: with the configured store location missing, the run exits with code
1, prints the diagnostic lines, opens no connection, and neither writes nor
deletes any file. -/
theorem claim_C6 : ∀ (t : Int) (w : World), w.storeExists = false →
    (runPipeline t w).exitCode = 1 ∧
    (runPipeline t w).connectionOpened = false ∧
    (runPipeline t w).swotDir = w.swotDir ∧
    (runPipeline t w).compDir = w.compDir ∧
    (runPipeline t w).errLog =
      ["❌ База данных не найдена: " ++ w.dbPath,
        "💡 Укажите путь: node generate-docs.js --db /path/to/swot.db"] := by
  intro t w hs
  rw [runPipeline_eq_of_missing t w hs]
  exact ⟨rfl, rfl, rfl, rfl, rfl⟩

/-- Witness for C6: the concrete missing-store world. -/
theorem claim_C6_witness :
    (runPipeline 0 missingStoreWorld).exitCode = 1 ∧
    (runPipeline 0 missingStoreWorld).connectionOpened = false ∧
    (runPipeline 0 missingStoreWorld).swotDir = missingStoreWorld.swotDir ∧
    (runPipeline 0 missingStoreWorld).compDir = missingStoreWorld.compDir ∧
    (runPipeline 0 missingStoreWorld).errLog =
      ["❌ База данных не найдена: " ++ missingStoreWorld.dbPath,
        "💡 Укажите путь: node generate-docs.js --db /path/to/swot.db"] :=
  claim_C6 0 missingStoreWorld rfl

/-- C1 (amended): the reconciler deletes a present file exactly when it
matches the identifier pattern, is not underscore-protected, and its
embedded identifier is invalid; consequently, after a completed run each
output directory holds exactly the emitted slug files plus those
pre-existing files the reconciler keeps — the protected and non-matching
ones, and also any matching file whose embedded identifier is still
valid. -/
theorem claim_C1 :
    (∀ (ids : List Nat) (f : String), keepFile ids f = false ↔
        (startsWithUnderscore f = false ∧
          ∃ n, extractId f = some n ∧ ¬ n ∈ ids)) ∧
    (∀ (dir : List (String × String)) (ids : List Nat) (f : String),
        f ∈ dirNames dir →
        (f ∉ dirNames (cleanupOldFiles dir ids).1 ↔ keepFile ids f = false)) ∧
    (∀ (t : Int) (w : World), w.storeExists = true →
        (runPipeline t w).fatal = none →
        (∀ f, f ∈ dirNames (runPipeline t w).swotDir ↔
            f ∈ w.swotRows.map swotFileName ∨
              (f ∈ dirNames w.swotDir ∧
                keepFile (w.swotRows.map fun r => r.id) f = true)) ∧
        (∀ f, f ∈ dirNames (runPipeline t w).compDir ↔
            f ∈ w.compRows.map compFileName ∨
              (f ∈ dirNames w.compDir ∧
                keepFile (w.compRows.map fun r => r.id) f = true))) := by
  refine ⟨keepFile_false_iff, ?_, ?_⟩
  · intro dir ids f hf
    have hiff : f ∈ dirNames ((cleanupOldFiles dir ids).1) ↔
        f ∈ dirNames dir ∧ keepFile ids f = true :=
      mem_dirNames_filter (fun g => keepFile ids g) dir f
    rw [hiff]
    cases hk : keepFile ids f
    · simp [hf]
    · simp [hf]
  · intro t w hs hok
    exact runPipeline_names t w hs hok

/-- Counterexample for C1 as stated: after the run on `c1World`, the file
"1999-01-01-3.mdx" is still present although it is not the slug file of any
listed record ("2024-03-01-3.mdx" is), is not underscore-protected, and does
match the identifier pattern — so the post-run file set is strictly larger
than the stated union. -/
theorem claim_C1_counterexample :
    (runPipeline 0 c1World).fatal = none ∧
    "1999-01-01-3.mdx" ∈ dirNames (runPipeline 0 c1World).swotDir ∧
    "1999-01-01-3.mdx" ∉ c1World.swotRows.map swotFileName ∧
    startsWithUnderscore "1999-01-01-3.mdx" = false ∧
    extractId "1999-01-01-3.mdx" = some 3 ∧
    endsWithMdx "1999-01-01-3.mdx" = true :=
  ⟨rfl, by decide, by decide, rfl, rfl, rfl⟩

/-- Witness for C1: the amended file-set characterization applied to the
concrete world `c1World` at the emitted file name. -/
theorem claim_C1_witness :
    "2024-03-01-3.mdx" ∈ dirNames (runPipeline 0 c1World).swotDir ↔
      "2024-03-01-3.mdx" ∈ c1World.swotRows.map swotFileName ∨
        ("2024-03-01-3.mdx" ∈ dirNames c1World.swotDir ∧
          keepFile (c1World.swotRows.map fun r => r.id) "2024-03-01-3.mdx" = true) :=
  (claim_C1.2.2 0 c1World rfl rfl).1 "2024-03-01-3.mdx"

/-- C2 (amended): a missing or empty structured column deserializes to the
empty list and a row whose columns are all missing or empty renders without
failure; a present-but-unparseable column is a fatal error with no
per-record recovery — a run that did not abort parsed every structured
column of every listed row of both kinds.  (Files already emitted for
earlier rows of the kind remain on disk, so an aborted run can leave
partial output; see the counterexample.) -/
theorem claim_C2 :
    (parseStructured none = some (Json.arr []) ∧
      parseStructured (some "") = some (Json.arr [])) ∧
    (∀ (tz : Int) (i : Nat) (row : SwotRow), allStructuredMissing row →
        ∃ out, renderSwot tz i row = .ok out) ∧
    (∀ (t : Int) (w : World), w.storeExists = true →
        (runPipeline t w).fatal = none →
        (∀ r ∈ w.swotRows, structuredParsesSwot r) ∧
        (∀ r ∈ w.compRows, (parseStructured r.items_json).isSome = true)) := by
  refine ⟨⟨rfl, rfl⟩, renderSwot_ok_of_missing, ?_⟩
  intro t w hs hok
  obtain ⟨d1, d2, he1, he2, -, -, -⟩ := runPipeline_ok_parts t w hs hok
  constructor
  · intro r hr
    obtain ⟨j, hj⟩ := List.getElem?_of_mem hr
    obtain ⟨out, hout⟩ := runEmit_none_ok (renderSwot w.tzOffsetMin)
      w.swotRows 0 w.swotDir d1 he1 j r hj
    obtain ⟨c, hc⟩ := renderSwot_ok_build hout
    exact buildSwot_ok_parses hc
  · intro r hr
    obtain ⟨j, hj⟩ := List.getElem?_of_mem hr
    obtain ⟨out, hout⟩ := runEmit_none_ok (renderComp w.tzOffsetMin)
      w.compRows 0 w.compDir d2 he2 j r hj
    obtain ⟨c, hc⟩ := renderComp_ok_build hout
    exact buildComp_ok_parses hc

/-- Counterexample for C2 as stated: on `c2World` the run aborts on the
malformed second row, yet the file of the first row has already been
emitted into the initially empty analyses directory — the abort does leave
partial output for that kind. -/
theorem claim_C2_counterexample :
    (runPipeline 0 c2World).fatal.isSome = true ∧
    "2024-03-01-7.mdx" ∈ dirNames (runPipeline 0 c2World).swotDir ∧
    dirNames c2World.swotDir = [] :=
  ⟨rfl, by decide, rfl⟩

/-- Witness for C2: the completed run on `c2GoodWorld` parsed every
structured column of the listed analysis row. -/
theorem claim_C2_witness : structuredParsesSwot emptyRow7 :=
  (claim_C2.2.2 0 c2GoodWorld rfl rfl).1 emptyRow7 (List.mem_singleton.mpr rfl)

/-- C7: emission is idempotent — the emitter writes to the deterministic
path `<slug>.mdx`, overwriting unconditionally; the run reads no wall
clock; and re-running over unchanged rows on the directory a completed run
produced reproduces that directory byte for byte. -/
theorem claim_C7 :
    (∀ (dir : List (String × String)) (n c : String),
        lookupFile (writeFile dir n c) n = some c) ∧
    (∀ (tz : Int) (i : Nat) (row : SwotRow) (out : Rendered),
        renderSwot tz i row = .ok out → out.fileName = out.slug ++ ".mdx") ∧
    (∀ (tz : Int) (i : Nat) (row : CompRow) (out : Rendered),
        renderComp tz i row = .ok out → out.fileName = out.slug ++ ".mdx") ∧
    (∀ (t t' : Int) (w : World), runPipeline t w = runPipeline t' w) ∧
    (∀ (t t' : Int) (w : World),
        (w.swotRows.map fun r => r.id).Nodup →
        (w.compRows.map fun r => r.id).Nodup →
        (runPipeline t w).fatal = none →
        (runPipeline t' { w with swotDir := (runPipeline t w).swotDir,
                                 compDir := (runPipeline t w).compDir }).swotDir
            = (runPipeline t w).swotDir ∧
        (runPipeline t' { w with swotDir := (runPipeline t w).swotDir,
                                 compDir := (runPipeline t w).compDir }).compDir
            = (runPipeline t w).compDir ∧
        (runPipeline t' { w with swotDir := (runPipeline t w).swotDir,
                                 compDir := (runPipeline t w).compDir }).fatal
            = none) := by
  refine ⟨lookupFile_writeFile_self, ?_, ?_, ?_, runPipeline_idem⟩
  · intro tz i row out h
    rw [(renderSwot_ok_shape h).2.1, (renderSwot_ok_shape h).1]
    rfl
  · intro tz i row out h
    rw [(renderComp_ok_shape h).2.1, (renderComp_ok_shape h).1]
    rfl
  · intro t t' w
    rfl

/-- Witness for C7: re-running on the output of the completed run over
`c7World` (which also removed the stale file "2011-09-09-99.mdx") leaves
both directories unchanged. -/
theorem claim_C7_witness :
    (runPipeline 7 { c7World with
        swotDir := (runPipeline 0 c7World).swotDir,
        compDir := (runPipeline 0 c7World).compDir }).swotDir
      = (runPipeline 0 c7World).swotDir ∧
    (runPipeline 7 { c7World with
        swotDir := (runPipeline 0 c7World).swotDir,
        compDir := (runPipeline 0 c7World).compDir }).compDir
      = (runPipeline 0 c7World).compDir ∧
    (runPipeline 7 { c7World with
        swotDir := (runPipeline 0 c7World).swotDir,
        compDir := (runPipeline 0 c7World).compDir }).fatal = none :=
  claim_C7.2.2.2.2 0 7 c7World (by decide) (by decide) rfl

/-- C8 (amended): the proxy forwards a request — plain or upgrade — exactly
when the authorization header is present, carries the Basic scheme, and the
first two colon-separated fields of the base64-decoded payload equal the
configured username and password; every other plain request receives the
401 challenge and every other upgrade request has its socket destroyed.
(Because only the first two fields are compared, a payload with extra
colon-separated fields after a matching password is forwarded although it
does not carry exactly the configured pair; see the counterexample.) -/
theorem claim_C8 :
    (∀ (userBytes passBytes : List Nat) (auth : Option String),
        handleRequest userBytes passBytes auth = .forwarded ↔
          ∃ s, auth = some s ∧ hasBasicScheme s.data = true ∧
            authDecision userBytes passBytes s = true) ∧
    (∀ (userBytes passBytes : List Nat) (auth : Option String),
        handleRequest userBytes passBytes auth ≠ .forwarded →
          handleRequest userBytes passBytes auth = .challenge401) ∧
    (∀ (userBytes passBytes : List Nat) (auth : Option String),
        handleUpgrade userBytes passBytes auth = .forwardedWs ↔
          ∃ s, auth = some s ∧ hasBasicScheme s.data = true ∧
            authDecision userBytes passBytes s = true) ∧
    (∀ (userBytes passBytes : List Nat) (auth : Option String),
        handleUpgrade userBytes passBytes auth ≠ .forwardedWs →
          handleUpgrade userBytes passBytes auth = .socketDestroyed) := by
  refine ⟨?_, ?_, ?_, ?_⟩
  · intro U P auth
    cases auth with
    | none => simp [handleRequest]
    | some s =>
      rw [handleRequest]
      by_cases hb : hasBasicScheme s.data = true
      · rw [if_pos hb]
        by_cases hd : authDecision U P s = true
        · rw [if_pos hd]
          simp [hb, hd]
        · rw [if_neg hd]
          simp [hd]
      · rw [if_neg hb]
        simp [hb]
  · intro U P auth h
    cases ho : handleRequest U P auth with
    | challenge401 => rfl
    | forwarded => exact absurd ho h
  · intro U P auth
    cases auth with
    | none => simp [handleUpgrade]
    | some s =>
      rw [handleUpgrade]
      by_cases hb : hasBasicScheme s.data = true
      · rw [if_pos hb]
        by_cases hd : authDecision U P s = true
        · rw [if_pos hd]
          simp [hb, hd]
        · rw [if_neg hd]
          simp [hd]
      · rw [if_neg hb]
        simp [hb]
  · intro U P auth h
    cases ho : handleUpgrade U P auth with
    | socketDestroyed => rfl
    | forwardedWs => exact absurd ho h

/-- Counterexample for C8 as stated: with username "admin" and password
"pass" configured, the header "Basic YWRtaW46cGFzczp4" — whose payload
decodes to "admin:pass:x", so under the Basic scheme it carries the password
"pass:x", not the configured pair — is forwarded anyway, because only the
first two colon-separated fields are compared. -/
theorem claim_C8_counterexample :
    handleRequest [97, 100, 109, 105, 110] [112, 97, 115, 115]
        (some "Basic YWRtaW46cGFzczp4") = .forwarded ∧
    carriesBasicPair [97, 100, 109, 105, 110] [112, 97, 115, 115]
        "Basic YWRtaW46cGFzczp4" = false ∧
    b64decode ("Basic YWRtaW46cGFzczp4".drop 6) =
      [97, 100, 109, 105, 110, 58, 112, 97, 115, 115, 58, 120] :=
  ⟨rfl, rfl, rfl⟩

/-- Witness for C8: a request without any authorization header is not
forwarded, hence receives the 401 challenge. -/
theorem claim_C8_witness :
    handleRequest [97, 100, 109, 105, 110]
      [115, 119, 111, 116, 50, 48, 50, 52] none = .challenge401 :=
  claim_C8.2.1 [97, 100, 109, 105, 110]
    [115, 119, 111, 116, 50, 48, 50, 52] none (by decide)

/-- C9: the reconciler's identifier extraction takes the final
dash-delimited digit run before the ".mdx" extension — never an earlier
dash-number group such as a date component — and any file whose identifier
so extracted is valid is kept even when the rest of its name differs from
the record's current slug. -/
theorem claim_C9 :
    (∀ (p d : List Char), d ≠ [] → (∀ c ∈ d, c.isDigit = true) →
        extractId ⟨p ++ '-' :: (d ++ ".mdx".data)⟩ = some (digitsVal d)) ∧
    extractId "2024-01-01-3.mdx" = some 3 ∧
    keepFile [3] "1999-01-01-3.mdx" = true ∧
    slugOf 1709287200000 3 ++ ".mdx" = "2024-03-01-3.mdx" := by
  refine ⟨extractId_append_digits, rfl, rfl, rfl⟩

/-- Witness for C9: the general extraction shape applied to the stem
"2024-01-01" with the digit run "3". -/
theorem claim_C9_witness :
    extractId ⟨"2024-01-01".data ++ '-' :: ('3' :: [] ++ ".mdx".data)⟩ =
      some (digitsVal ['3']) :=
  claim_C9.1 "2024-01-01".data ['3'] (by decide) (by decide)

/-- C10: if the configured password contains a colon, every request is
rejected — the plain handler always answers with the 401 challenge and the
upgrade handler always destroys the socket — because the colon split can
never reproduce the password in its second field.  This includes a request
presenting exactly the configured username and password (see the
witness). -/
theorem claim_C10 :
    ∀ (userBytes passBytes : List Nat), 58 ∈ passBytes →
      ∀ auth : Option String,
        handleRequest userBytes passBytes auth = .challenge401 ∧
        handleUpgrade userBytes passBytes auth = .socketDestroyed := by
  intro U P hc auth
  cases auth with
  | none => exact ⟨rfl, rfl⟩
  | some s =>
    constructor
    · rw [handleRequest]
      by_cases hb : hasBasicScheme s.data = true
      · rw [if_pos hb, authDecision_false_of_colon hc s]
        simp
      · rw [if_neg hb]
    · rw [handleUpgrade]
      by_cases hb : hasBasicScheme s.data = true
      · rw [if_pos hb, authDecision_false_of_colon hc s]
        simp
      · rw [if_neg hb]

/-- Witness for C10: with username "admin" and password "a:b" configured, a
request presenting exactly those credentials ("Basic YWRtaW46YTpi" decodes
to "admin:a:b") is still rejected on both paths. -/
theorem claim_C10_witness :
    handleRequest [97, 100, 109, 105, 110] [97, 58, 98]
        (some "Basic YWRtaW46YTpi") = .challenge401 ∧
    handleUpgrade [97, 100, 109, 105, 110] [97, 58, 98]
        (some "Basic YWRtaW46YTpi") = .socketDestroyed :=
  claim_C10 [97, 100, 109, 105, 110] [97, 58, 98] (by decide)
    (some "Basic YWRtaW46YTpi")

end SwotDocs

